import Mathlib

/-!
Verification of the SBL stack-language compiler, type checker and interpreter
against its natural-language specification.

This file is a shallow embedding of the Rust sources:
  * `common.rs`   : `SourceLocation`, `Error`
  * `types.rs`    : `Type` (here `Ty`, since `Type` is a Lean keyword)
  * `token.rs`    : `TokenKind`, `TokenData`, `Token`
  * `ops.rs`      : `Op`, `BlockType`, `compile_ops`
  * `execution.rs`: `Value`, `run_ops`
  * `type_checking.rs` : `JumpType`, `Context`, `type_check_ops`
  * `tokenizer.rs`: the `Tokenizer` capability interface and `TokenArray`
  * `lexer.rs`    : the character-level lexer (its own older token set)

Translation conventions, used consistently below:
  * Rust `Vec` used as a stack (`push`/`pop`/`last`) becomes a Lean `List`
    whose HEAD is the Vec's LAST element (the top of the stack).  Rust
    `Vec` used as a growing array with absolute indices (the op list, the
    branch table) stays in Vec order: append at the end, index from 0.
  * Mutation of a `&mut` parameter becomes explicit state passing.
  * A Rust panic (`unwrap` failure, `unreachable!()`, out-of-bounds index,
    integer division by zero) is the explicit `crash` / dedicated outcome
    of the result type; loops are driven by fuel, with `outOfFuel` as a
    separate outcome, so every function is total and executable.
  * `format!` messages are rebuilt by string concatenation; `{:?}` debug
    rendering of embedded values uses derived `Repr` (the exact rendering
    differs from Rust's, the message skeletons are the source's).
-/

namespace SBL

/-- Mirrors `SourceLocation` from `common.rs`. -/
structure SourceLocation where
  filepath : String
  position : Nat
  line : Nat
  column : Nat
deriving Repr, DecidableEq

/-- Mirrors `Error` from `common.rs`. -/
structure Error where
  location : SourceLocation
  message : String
deriving Repr, DecidableEq

/-- Mirrors `Type` from `types.rs` (named `Ty` because `Type` is a Lean keyword). -/
inductive Ty where
  | type : Ty
  | integer : Ty
  | bool : Ty
  | procedure (parameters : List Ty) (return_types : List Ty) : Ty
deriving Repr

mutual

/-- Structural equality on `Ty`, mirroring the derived `PartialEq` of `types.rs`.
(`deriving DecidableEq` is unavailable for this nested inductive.) -/
def Ty.beq : Ty → Ty → Bool
  | .type, .type => true
  | .integer, .integer => true
  | .bool, .bool => true
  | .procedure ps rs, .procedure ps' rs' => Ty.beqList ps ps' && Ty.beqList rs rs'
  | _, _ => false

/-- Elementwise `Ty.beq` on lists (the derived `PartialEq` of `Vec<Type>`). -/
def Ty.beqList : List Ty → List Ty → Bool
  | [], [] => true
  | a :: as_, b :: bs => Ty.beq a b && Ty.beqList as_ bs
  | _, _ => false

end

/-- Mirrors `TokenKind` from `token.rs`.  The constructor `equalEqual` does not
appear in the `token.rs` snapshot (which has only `Equal`/`NotEqual`), but
`compile_ops` in `ops.rs` matches on `TokenKind::EqualEqual`; the lexer of that
generation is not in the sources.  Modelled from the spec: the token produced
for the source-level equality operator, compiled to the `Equal` op. -/
inductive TokenKind where
  | endOfFile
  | integer
  | name
  | print
  | «if»
  | «else»
  | «while»
  | proc
  | call
  | dup
  | drop
  | swap
  | memory
  | openParenthesis
  | closeParenthesis
  | openBrace
  | closeBrace
  | not
  | rightArrow
  | plus
  | minus
  | asterisk
  | slash
  | lessThan
  | greaterThan
  | lessThanEqual
  | greaterThanEqual
  | equal
  | equalEqual
  | notEqual
deriving Repr, DecidableEq

/-- Mirrors `TokenData` from `token.rs`. -/
inductive TokenData where
  | none
  | integer (value : Int)
  | string (value : String)
deriving Repr, DecidableEq

/-- Mirrors `Token` from `token.rs`. -/
structure Token where
  kind : TokenKind
  location : SourceLocation
  length : Nat
  data : TokenData
deriving Repr, DecidableEq

/-- Mirrors `Op` from `ops.rs`.  `ConditonalJump` keeps the source's spelling. -/
inductive Op where
  | Exit (location : SourceLocation)
  | PushFunctionPointer (location : SourceLocation) (value : Nat)
  | PushType (location : SourceLocation) (value : Ty)
  | PushInteger (location : SourceLocation) (value : Int)
  | AddInteger (location : SourceLocation)
  | SubtractInteger (location : SourceLocation)
  | MultiplyInteger (location : SourceLocation)
  | DivideInteger (location : SourceLocation)
  | LessThanInteger (location : SourceLocation)
  | GreaterThanInteger (location : SourceLocation)
  | LessThanEqualInteger (location : SourceLocation)
  | GreaterThanEqualInteger (location : SourceLocation)
  | Equal (location : SourceLocation)
  | NotEqual (location : SourceLocation)
  | Not (location : SourceLocation)
  | Dup (location : SourceLocation)
  | Drop (location : SourceLocation)
  | Swap (location : SourceLocation)
  | Jump (location : SourceLocation) (position : Nat)
  | ConditonalJump (location : SourceLocation) (position : Nat)
  | Print (location : SourceLocation)
  | SkipProc (location : SourceLocation) (position : Nat)
      (parameters : List Ty) (return_types : List Ty)
  | Call (location : SourceLocation)
  | Return (location : SourceLocation)
deriving Repr

/-- Mirrors `Value` from `execution.rs` (its generation has no `Type` variant). -/
inductive Value where
  | integer (value : Int)
  | bool (value : Bool)
  | function_pointer (value : Nat)
deriving Repr, DecidableEq

/-- Outcome of running `run_ops` from `execution.rs`.  `underflow` is an
`unwrap` failure on an empty operand stack; `tagMismatch` is the
`unreachable!()` in `Value::integer`/`bool`/`function_pointer` when the popped
value has the wrong variant; `divByZero` is the Rust division-by-zero trap in
`DivideInteger`; `crash` is every other panic (instruction pointer out of
bounds, `Return` with an empty return stack, and the `Swap` / `PushType` ops
for which `run_ops`'s match in `execution.rs` has no arm). -/
inductive RunRes where
  | halted
  | underflow
  | tagMismatch
  | divByZero
  | crash
  | outOfFuel
deriving Repr, DecidableEq

/-- `stack.pop().unwrap()` : pop the top value or underflow. -/
def popValue : List Value → Except RunRes (Value × List Value)
  | [] => .error .underflow
  | v :: s => .ok (v, s)

/-- `stack.pop().unwrap().integer()` : pop, then untag as `Integer`. -/
def popInteger (stack : List Value) : Except RunRes (Int × List Value) := do
  let (v, s) ← popValue stack
  match v with
  | .integer n => .ok (n, s)
  | _ => .error .tagMismatch

/-- `stack.pop().unwrap().bool()` : pop, then untag as `Bool`. -/
def popBool (stack : List Value) : Except RunRes (Bool × List Value) := do
  let (v, s) ← popValue stack
  match v with
  | .bool b => .ok (b, s)
  | _ => .error .tagMismatch

/-- `stack.pop().unwrap().function_pointer()` : pop, then untag. -/
def popFunctionPointer (stack : List Value) : Except RunRes (Nat × List Value) := do
  let (v, s) ← popValue stack
  match v with
  | .function_pointer p => .ok (p, s)
  | _ => .error .tagMismatch

/-- The main loop of `run_ops` from `execution.rs`, one fuel unit per loop
iteration.  The operand stack and the return stack are lists with the head as
the top.  The trailing `ip + 1` of the Rust loop body is folded into each arm
that does not `continue`.  `Print`'s rendering to stdout is dropped; only its
stack effect is kept. -/
def run_loop (ops : List Op) : Nat → Nat → List Value → List Nat → RunRes
  | 0, _, _, _ => .outOfFuel
  | fuel + 1, ip, stack, return_stack =>
    match ops.get? ip with
    | none => .crash
    | some op =>
      match op with
      | .Exit _ => .halted
      | .PushFunctionPointer _ value =>
        run_loop ops fuel (ip + 1) (.function_pointer value :: stack) return_stack
      | .PushInteger _ value =>
        run_loop ops fuel (ip + 1) (.integer value :: stack) return_stack
      | .AddInteger _ =>
        match popInteger stack with
        | .error r => r
        | .ok (b, s) =>
          match popInteger s with
          | .error r => r
          | .ok (a, s) => run_loop ops fuel (ip + 1) (.integer (a + b) :: s) return_stack
      | .SubtractInteger _ =>
        match popInteger stack with
        | .error r => r
        | .ok (b, s) =>
          match popInteger s with
          | .error r => r
          | .ok (a, s) => run_loop ops fuel (ip + 1) (.integer (a - b) :: s) return_stack
      | .MultiplyInteger _ =>
        match popInteger stack with
        | .error r => r
        | .ok (b, s) =>
          match popInteger s with
          | .error r => r
          | .ok (a, s) => run_loop ops fuel (ip + 1) (.integer (a * b) :: s) return_stack
      | .DivideInteger _ =>
        match popInteger stack with
        | .error r => r
        | .ok (b, s) =>
          match popInteger s with
          | .error r => r
          | .ok (a, s) =>
            if b = 0 then .divByZero
            else run_loop ops fuel (ip + 1) (.integer (Int.tdiv a b) :: s) return_stack
      | .LessThanInteger _ =>
        match popInteger stack with
        | .error r => r
        | .ok (b, s) =>
          match popInteger s with
          | .error r => r
          | .ok (a, s) => run_loop ops fuel (ip + 1) (.bool (a < b) :: s) return_stack
      | .GreaterThanInteger _ =>
        match popInteger stack with
        | .error r => r
        | .ok (b, s) =>
          match popInteger s with
          | .error r => r
          | .ok (a, s) => run_loop ops fuel (ip + 1) (.bool (b < a) :: s) return_stack
      | .LessThanEqualInteger _ =>
        match popInteger stack with
        | .error r => r
        | .ok (b, s) =>
          match popInteger s with
          | .error r => r
          | .ok (a, s) => run_loop ops fuel (ip + 1) (.bool (a ≤ b) :: s) return_stack
      | .GreaterThanEqualInteger _ =>
        match popInteger stack with
        | .error r => r
        | .ok (b, s) =>
          match popInteger s with
          | .error r => r
          | .ok (a, s) => run_loop ops fuel (ip + 1) (.bool (b ≤ a) :: s) return_stack
      | .Equal _ =>
        match popValue stack with
        | .error r => r
        | .ok (v, s) =>
          match v with
          | .integer value =>
            match popInteger s with
            | .error r => r
            | .ok (w, s) => run_loop ops fuel (ip + 1) (.bool (value = w) :: s) return_stack
          | .bool value =>
            match popBool s with
            | .error r => r
            | .ok (w, s) => run_loop ops fuel (ip + 1) (.bool (value = w) :: s) return_stack
          | .function_pointer value =>
            match popFunctionPointer s with
            | .error r => r
            | .ok (w, s) => run_loop ops fuel (ip + 1) (.bool (value = w) :: s) return_stack
      | .NotEqual _ =>
        match popValue stack with
        | .error r => r
        | .ok (v, s) =>
          match v with
          | .integer value =>
            match popInteger s with
            | .error r => r
            | .ok (w, s) => run_loop ops fuel (ip + 1) (.bool (value ≠ w) :: s) return_stack
          | .bool value =>
            match popBool s with
            | .error r => r
            | .ok (w, s) => run_loop ops fuel (ip + 1) (.bool (value ≠ w) :: s) return_stack
          | .function_pointer value =>
            match popFunctionPointer s with
            | .error r => r
            | .ok (w, s) => run_loop ops fuel (ip + 1) (.bool (value ≠ w) :: s) return_stack
      | .Not _ =>
        match popBool stack with
        | .error r => r
        | .ok (value, s) => run_loop ops fuel (ip + 1) (.bool (!value) :: s) return_stack
      | .Dup _ =>
        match stack with
        | [] => .underflow
        | v :: _ => run_loop ops fuel (ip + 1) (v :: stack) return_stack
      | .Drop _ =>
        match popValue stack with
        | .error r => r
        | .ok (_, s) => run_loop ops fuel (ip + 1) s return_stack
      | .Jump _ position => run_loop ops fuel position stack return_stack
      | .ConditonalJump _ position =>
        match popBool stack with
        | .error r => r
        | .ok (condition, s) =>
          if condition then run_loop ops fuel position s return_stack
          else run_loop ops fuel (ip + 1) s return_stack
      | .Print _ =>
        match popValue stack with
        | .error r => r
        | .ok (_, s) => run_loop ops fuel (ip + 1) s return_stack
      | .SkipProc _ position _ _ => run_loop ops fuel position stack return_stack
      | .Call _ =>
        match popFunctionPointer stack with
        | .error r => r
        | .ok (position, s) => run_loop ops fuel position s ((ip + 1) :: return_stack)
      | .Return _ =>
        match return_stack with
        | [] => .crash
        | r :: rs => run_loop ops fuel r stack rs
      | .PushType _ _ => .crash
      | .Swap _ => .crash

/-- Mirrors `run_ops` from `execution.rs`: run from position 0 with empty
operand and return stacks. -/
def run_ops (ops : List Op) (fuel : Nat) : RunRes :=
  run_loop ops fuel 0 [] []

/-- Mirrors `JumpType` from `type_checking.rs`. -/
inductive JumpType where
  | jump
  | fallthrough
  | both
deriving Repr, DecidableEq

/-- Mirrors `Context` from `type_checking.rs`.  `stack` is the symbolic
operand stack (head = top); `condtional_jump_list` keeps the source's
spelling and its `Vec` order (appended at the end, searched from the front). -/
structure Context where
  ip : Nat
  stack : List (Ty × SourceLocation)
  condtional_jump_list : List (Nat × JumpType)
  procedure_info : Option Ty
deriving Repr

/-- Mirrors `expect_type_count` from `type_checking.rs`. -/
def expect_type_count (stack : List (Ty × SourceLocation)) (location : SourceLocation)
    (count : Nat) : Except Error Unit :=
  if stack.length < count then
    .error { location := location,
             message := "Expected at least " ++ toString count ++
               " items on the stack, got " ++ toString stack.length }
  else
    .ok ()

/-- The index loop of `expect_types`: compare the checked region of the stack
(deepest first, i.e. Rust's ascending `index`) against `types`; report the
first mismatch with its 1-based argument index and the offending entry's
origin location. -/
def check_arg_types : List (Ty × SourceLocation) → List Ty → Nat → Option Error
  | _, [], _ => none
  | [], _ :: _, _ => none
  | (t, tloc) :: stk, ty :: tys, index =>
    if Ty.beq t ty then
      check_arg_types stk tys (index + 1)
    else
      some { location := tloc,
             message := "Expected type " ++ reprStr ty ++ " for argument " ++
               toString (index + 1) ++ ", got type " ++ reprStr t }

/-- Mirrors `expect_types` from `type_checking.rs`: check the stack has at
least `types.length` entries, check the top `types.length` entries against
`types` (Rust indexes `stack[len - types.len + index]`, i.e. the checked
region deepest-first; with head-as-top that region is
`(stack.take types.length).reverse`), then pop them.  The mismatch error's
`location` field carries the checked op's location in the source; here the
offending entry's origin is reported through `check_arg_types` and the op
location is substituted below, matching the source's single `Error` whose
message interpolates both. -/
def expect_types (stack : List (Ty × SourceLocation)) (location : SourceLocation)
    (types : List Ty) : Except Error (List (Ty × SourceLocation)) :=
  match expect_type_count stack location types.length with
  | .error e => .error e
  | .ok _ =>
    match check_arg_types ((stack.take types.length).reverse) types 0 with
    | some e => .error { location := location,
                         message := e.message ++ "; Incorrect type came from here: " ++
                           e.location.filepath ++ ":" ++ toString e.location.line ++ ":" ++
                           toString e.location.column }
    | none => .ok (stack.drop types.length)

/-- Outcome of `type_check_ops`.  `crash` is a Rust panic: an instruction
pointer outside `ops` (the `ops[context.ip]` index), the `unreachable!()` in
the `PushFunctionPointer` arm when `ops[value - 1]` is not a `SkipProc` (or
`value` is `0`, which underflows the `usize` subtraction), the
`procedure_info` unwrap in `Return`, and the `PushType` op for which the
match in `type_checking.rs` has no arm. -/
inductive CheckRes where
  | ok
  | error (e : Error)
  | crash
  | outOfFuel
deriving Repr

/-- Mirrors `iter().position(|(pos, _)| *pos == context.ip)` on the branch
table: index of the first entry for the given position. -/
def jt_position : List (Nat × JumpType) → Nat → Option Nat
  | [], _ => none
  | e :: rest, p => if e.1 = p then some 0 else (jt_position rest p).map (· + 1)

/-- The message of the third-visit failure in the `ConditonalJump` arm of
`type_check_ops` (verbatim from `type_checking.rs`). -/
def ice_message : String :=
  "Internal Compiler Error: Infinite loop detected in type checker; what do we do here?"

/-- The `while contexts.len() > 0` loop of `type_check_ops` from
`type_checking.rs`, one fuel unit per iteration.  The work-stack `contexts`
is a list with head = `Vec` last (the context being processed);
`contexts.push` is cons.  The trailing `contexts.last_mut().unwrap().ip += 1`
of the Rust loop body is folded into each arm that does not `continue`. -/
def type_check_loop (ops : List Op) : Nat → List Context → CheckRes
  | _, [] => .ok
  | 0, _ :: _ => .outOfFuel
  | fuel + 1, c :: rest =>
    match ops.get? c.ip with
    | none => .crash
    | some op =>
      match op with
      | .Exit _ =>
        match c.stack with
        | entry :: _ =>
          .error { location := entry.2,
                   message := "Unexpected types on the stack at the end of the program" }
        | [] => type_check_loop ops fuel rest
      | .PushFunctionPointer location value =>
        if value = 0 then .crash
        else
          match ops.get? (value - 1) with
          | some (.SkipProc _ _ parameters return_types) =>
            type_check_loop ops fuel
              ({ c with
                  ip := c.ip + 1
                  stack := (Ty.procedure parameters return_types, location) :: c.stack } :: rest)
          | _ => .crash
      | .PushInteger location _ =>
        type_check_loop ops fuel
          ({ c with ip := c.ip + 1, stack := (Ty.integer, location) :: c.stack } :: rest)
      | .AddInteger location
      | .SubtractInteger location
      | .MultiplyInteger location
      | .DivideInteger location =>
        match expect_types c.stack location [Ty.integer, Ty.integer] with
        | .error e => .error e
        | .ok s =>
          type_check_loop ops fuel
            ({ c with ip := c.ip + 1, stack := (Ty.integer, location) :: s } :: rest)
      | .LessThanInteger location
      | .GreaterThanInteger location
      | .LessThanEqualInteger location
      | .GreaterThanEqualInteger location =>
        match expect_types c.stack location [Ty.integer, Ty.integer] with
        | .error e => .error e
        | .ok s =>
          type_check_loop ops fuel
            ({ c with ip := c.ip + 1, stack := (Ty.bool, location) :: s } :: rest)
      | .Equal location
      | .NotEqual location =>
        match expect_type_count c.stack location 2 with
        | .error e => .error e
        | .ok _ =>
          match c.stack with
          | _ :: (typ, _) :: _ =>
            match expect_types c.stack location [typ, typ] with
            | .error e => .error e
            | .ok s =>
              type_check_loop ops fuel
                ({ c with ip := c.ip + 1, stack := (Ty.bool, location) :: s } :: rest)
          | _ => .crash
      | .Not location =>
        match expect_types c.stack location [Ty.bool] with
        | .error e => .error e
        | .ok s =>
          type_check_loop ops fuel
            ({ c with ip := c.ip + 1, stack := (Ty.bool, location) :: s } :: rest)
      | .Dup location =>
        match expect_type_count c.stack location 1 with
        | .error e => .error e
        | .ok _ =>
          match c.stack with
          | (typ, _) :: _ =>
            type_check_loop ops fuel
              ({ c with ip := c.ip + 1, stack := (typ, location) :: c.stack } :: rest)
          | _ => .crash
      | .Drop location =>
        match expect_type_count c.stack location 1 with
        | .error e => .error e
        | .ok _ =>
          match c.stack with
          | _ :: s =>
            type_check_loop ops fuel ({ c with ip := c.ip + 1, stack := s } :: rest)
          | _ => .crash
      | .Swap location =>
        match expect_type_count c.stack location 2 with
        | .error e => .error e
        | .ok _ =>
          match c.stack with
          | (a, _) :: (b, _) :: s =>
            type_check_loop ops fuel
              ({ c with
                  ip := c.ip + 1
                  stack := (b, location) :: (a, location) :: s } :: rest)
          | _ => .crash
      | .Jump _ position =>
        type_check_loop ops fuel ({ c with ip := position } :: rest)
      | .ConditonalJump location position =>
        match expect_types c.stack location [Ty.bool] with
        | .error e => .error e
        | .ok s =>
          match jt_position c.condtional_jump_list c.ip with
          | some pos =>
            match c.condtional_jump_list.get? pos with
            | none => .crash
            | some (q, jump_type) =>
              match jump_type with
              | .jump =>
                type_check_loop ops fuel
                  ({ c with
                      ip := c.ip + 1
                      stack := s
                      condtional_jump_list := c.condtional_jump_list.set pos (q, .both) } :: rest)
              | .fallthrough =>
                type_check_loop ops fuel
                  ({ c with
                      ip := position
                      stack := s
                      condtional_jump_list := c.condtional_jump_list.set pos (q, .both) } :: rest)
              | .both => .error { location := location, message := ice_message }
          | none =>
            let new_context : Context :=
              { ip := c.ip + 1
                stack := s
                condtional_jump_list := c.condtional_jump_list ++ [(c.ip, .fallthrough)]
                procedure_info := c.procedure_info }
            type_check_loop ops fuel
              (new_context ::
                { c with
                    ip := position
                    stack := s
                    condtional_jump_list := c.condtional_jump_list ++ [(c.ip, .jump)] } :: rest)
      | .Print location =>
        match expect_type_count c.stack location 1 with
        | .error e => .error e
        | .ok _ =>
          match c.stack with
          | (typ, _) :: _ =>
            match expect_types c.stack location [typ] with
            | .error e => .error e
            | .ok s =>
              type_check_loop ops fuel ({ c with ip := c.ip + 1, stack := s } :: rest)
          | _ => .crash
      | .SkipProc location position parameters return_types =>
        let new_context : Context :=
          { ip := c.ip + 1
            stack := (parameters.map (fun p => (p, location))).reverse
            condtional_jump_list := []
            procedure_info := some (Ty.procedure parameters return_types) }
        type_check_loop ops fuel (new_context :: { c with ip := position } :: rest)
      | .Call location =>
        match expect_type_count c.stack location 1 with
        | .error e => .error e
        | .ok _ =>
          match c.stack with
          | (typ, typ_location) :: s =>
            match typ with
            | .procedure parameters return_types =>
              match expect_types s location parameters with
              | .error e => .error e
              | .ok s' =>
                type_check_loop ops fuel
                  ({ c with
                      ip := c.ip + 1
                      stack := (return_types.map (fun t => (t, location))).reverse ++ s' }
                    :: rest)
            | _ =>
              .error { location := typ_location,
                       message := "Expected procedure type, but got type " ++ reprStr typ }
          | _ => .crash
      | .Return location =>
        match c.procedure_info with
        | none => .crash
        | some pinfo =>
          match pinfo with
          | .procedure _ return_types =>
            match expect_types c.stack location return_types with
            | .error e => .error e
            | .ok s =>
              match s with
              | entry :: _ =>
                .error { location := entry.2,
                         message := "Unexpected types on the stack at the end of the procedure" }
              | [] => type_check_loop ops fuel rest
          | _ => .crash
      | .PushType _ _ => .crash

/-- Mirrors `type_check_ops` from `type_checking.rs`: one initial context at
position 0 with an empty symbolic stack, empty branch table and no enclosing
procedure. -/
def type_check_ops (ops : List Op) (fuel : Nat) : CheckRes :=
  type_check_loop ops fuel
    [{ ip := 0
       stack := []
       condtional_jump_list := []
       procedure_info := none }]

/-- Mirrors the `Tokenizer` trait from `tokenizer.rs` as a record of
operations over a state type `σ` (the Rust `&mut dyn Tokenizer`).  Both
implementations used by `compile_ops` produce tokens infallibly, so
`next_token` here is total; the fallible character-level lexer is a separate
component (see the `Lex` namespace). -/
structure Tokenizer (σ : Type) where
  next_token : σ → Token × σ
  peek_token : σ → Token
  peek_kind : σ → TokenKind

/-- The trait's provided `expect_token`: peek, compare the kind, consume on a
match, otherwise a `SyntaxError` at the peeked token's location. -/
def Tokenizer.expect_token {σ : Type} (tk : Tokenizer σ) (s : σ) (kind : TokenKind) :
    Except Error (Token × σ) :=
  let actual_token := tk.peek_token s
  if actual_token.kind = kind then
    .ok (tk.next_token s)
  else
    .error { location := actual_token.location,
             message := "Unexpected token " ++ reprStr actual_token.kind ++
               ", expected " ++ reprStr kind }

/-- Mirrors `TokenArray` from `tokenizer.rs`: an in-memory array of already
lexed tokens behind the tokenizer interface. -/
structure TokenArray where
  filepath : String
  tokens : List Token
  position : Nat
deriving Repr

/-- Mirrors `TokenArray::get_end_of_file_token`. -/
def TokenArray.get_end_of_file_token (ta : TokenArray) : Token :=
  { kind := .endOfFile
    location :=
      match ta.tokens.getLast? with
      | some last_token =>
        { filepath := ta.filepath
          position := last_token.location.position + last_token.length
          line := last_token.location.line
          column := last_token.location.column + last_token.length }
      | none => { filepath := ta.filepath, position := 0, line := 1, column := 1 }
    length := 0
    data := .none }

/-- The `Tokenizer` implementation of `TokenArray` from `tokenizer.rs`.  Note
the source's `next_token` increments `position` first and then tests
`position < tokens.len()`, so the last token of the array is never returned
by `next_token` (it is still visible to `peek_token`); this off-by-one is
reproduced faithfully. -/
def tokenArrayTokenizer : Tokenizer TokenArray where
  next_token ta :=
    let ta' : TokenArray := { ta with position := ta.position + 1 }
    if ta'.position < ta.tokens.length then
      ((ta.tokens.get? (ta'.position - 1)).getD ta.get_end_of_file_token, ta')
    else
      (ta.get_end_of_file_token, ta')
  peek_token ta :=
    if ta.position < ta.tokens.length then
      (ta.tokens.get? ta.position).getD ta.get_end_of_file_token
    else
      ta.get_end_of_file_token
  peek_kind ta :=
    if ta.position < ta.tokens.length then
      ((ta.tokens.get? ta.position).getD ta.get_end_of_file_token).kind
    else
      .endOfFile

/-- The end-of-file token synthesized by the stream tokenizer below. -/
def stream_eof_token : Token :=
  { kind := .endOfFile
    location := { filepath := "", position := 0, line := 1, column := 1 }
    length := 0
    data := .none }

/-- Modelled from the spec: the top-level tokenizer driving `compile_ops` in
the `ops.rs` generation is its character-level lexer, which is not among the
sources (the `lexer.rs` snapshot belongs to an older generation with a
different keyword set).  Per the contract of spec §4.1 it is a lazy stream:
`next()` consumes and returns the next token, end-of-file repeats forever,
`peek()` looks ahead one token without consuming.  Modelled as a plain token
list consumed from the front. -/
def streamTokenizer : Tokenizer (List Token) where
  next_token
    | [] => (stream_eof_token, [])
    | t :: ts => (t, ts)
  peek_token
    | [] => stream_eof_token
    | t :: _ => t
  peek_kind
    | [] => .endOfFile
    | t :: _ => t.kind

/-- Modelled from the spec: the runtime value union of §3 with the `Type`
variant (`Integer | Bool | FunctionPointer | Type`).  The `run_ops` consumed
by `compile_ops` in `ops.rs` for signature evaluation returns the final value
stack and matches a `Value::Type` variant; that interpreter generation is not
among the sources (the `execution.rs` snapshot returns `()` and its `Value`
has no `Type` variant), so it is modelled here from spec §3, §4.4 and §9. -/
inductive CValue where
  | integer (value : Int)
  | bool (value : Bool)
  | function_pointer (value : Nat)
  | type (value : Ty)
deriving Repr

/-- Result of the modelled signature-evaluation interpreter: the final value
stack on `Exit` (head = top), or a trap (`crash` collapses every runtime
panic: operand-stack underflow, wrong tag, division by zero, instruction
pointer out of bounds, empty return stack — signature sub-programs run
unverified, spec §2/§4.4). -/
inductive SigRunRes where
  | halted (stack : List CValue)
  | crash
  | outOfFuel
deriving Repr

/-- Modelled from the spec: the stack machine of §4.4 over `CValue`,
executing an op list to completion and returning the final operand stack.
Identical to `run_loop` on the shared variants, plus `PushType` (pushes the
tagged type value), `Swap` (exchanges the top two values) and structural
`Equal`/`NotEqual` on type values. -/
def run_types_loop (ops : List Op) : Nat → Nat → List CValue → List Nat → SigRunRes
  | 0, _, _, _ => .outOfFuel
  | fuel + 1, ip, stack, return_stack =>
    match ops.get? ip with
    | none => .crash
    | some op =>
      match op with
      | .Exit _ => .halted stack
      | .PushFunctionPointer _ value =>
        run_types_loop ops fuel (ip + 1) (.function_pointer value :: stack) return_stack
      | .PushType _ value =>
        run_types_loop ops fuel (ip + 1) (.type value :: stack) return_stack
      | .PushInteger _ value =>
        run_types_loop ops fuel (ip + 1) (.integer value :: stack) return_stack
      | .AddInteger _ =>
        match stack with
        | .integer b :: .integer a :: s =>
          run_types_loop ops fuel (ip + 1) (.integer (a + b) :: s) return_stack
        | _ => .crash
      | .SubtractInteger _ =>
        match stack with
        | .integer b :: .integer a :: s =>
          run_types_loop ops fuel (ip + 1) (.integer (a - b) :: s) return_stack
        | _ => .crash
      | .MultiplyInteger _ =>
        match stack with
        | .integer b :: .integer a :: s =>
          run_types_loop ops fuel (ip + 1) (.integer (a * b) :: s) return_stack
        | _ => .crash
      | .DivideInteger _ =>
        match stack with
        | .integer b :: .integer a :: s =>
          if b = 0 then .crash
          else run_types_loop ops fuel (ip + 1) (.integer (Int.tdiv a b) :: s) return_stack
        | _ => .crash
      | .LessThanInteger _ =>
        match stack with
        | .integer b :: .integer a :: s =>
          run_types_loop ops fuel (ip + 1) (.bool (a < b) :: s) return_stack
        | _ => .crash
      | .GreaterThanInteger _ =>
        match stack with
        | .integer b :: .integer a :: s =>
          run_types_loop ops fuel (ip + 1) (.bool (b < a) :: s) return_stack
        | _ => .crash
      | .LessThanEqualInteger _ =>
        match stack with
        | .integer b :: .integer a :: s =>
          run_types_loop ops fuel (ip + 1) (.bool (a ≤ b) :: s) return_stack
        | _ => .crash
      | .GreaterThanEqualInteger _ =>
        match stack with
        | .integer b :: .integer a :: s =>
          run_types_loop ops fuel (ip + 1) (.bool (b ≤ a) :: s) return_stack
        | _ => .crash
      | .Equal _ =>
        match stack with
        | .integer v :: .integer w :: s =>
          run_types_loop ops fuel (ip + 1) (.bool (v = w) :: s) return_stack
        | .bool v :: .bool w :: s =>
          run_types_loop ops fuel (ip + 1) (.bool (v = w) :: s) return_stack
        | .function_pointer v :: .function_pointer w :: s =>
          run_types_loop ops fuel (ip + 1) (.bool (v = w) :: s) return_stack
        | .type v :: .type w :: s =>
          run_types_loop ops fuel (ip + 1) (.bool (Ty.beq v w) :: s) return_stack
        | _ => .crash
      | .NotEqual _ =>
        match stack with
        | .integer v :: .integer w :: s =>
          run_types_loop ops fuel (ip + 1) (.bool (v ≠ w) :: s) return_stack
        | .bool v :: .bool w :: s =>
          run_types_loop ops fuel (ip + 1) (.bool (v ≠ w) :: s) return_stack
        | .function_pointer v :: .function_pointer w :: s =>
          run_types_loop ops fuel (ip + 1) (.bool (v ≠ w) :: s) return_stack
        | .type v :: .type w :: s =>
          run_types_loop ops fuel (ip + 1) (.bool (!Ty.beq v w) :: s) return_stack
        | _ => .crash
      | .Not _ =>
        match stack with
        | .bool value :: s =>
          run_types_loop ops fuel (ip + 1) (.bool (!value) :: s) return_stack
        | _ => .crash
      | .Dup _ =>
        match stack with
        | v :: _ => run_types_loop ops fuel (ip + 1) (v :: stack) return_stack
        | _ => .crash
      | .Drop _ =>
        match stack with
        | _ :: s => run_types_loop ops fuel (ip + 1) s return_stack
        | _ => .crash
      | .Swap _ =>
        match stack with
        | a :: b :: s => run_types_loop ops fuel (ip + 1) (b :: a :: s) return_stack
        | _ => .crash
      | .Jump _ position => run_types_loop ops fuel position stack return_stack
      | .ConditonalJump _ position =>
        match stack with
        | .bool condition :: s =>
          if condition then run_types_loop ops fuel position s return_stack
          else run_types_loop ops fuel (ip + 1) s return_stack
        | _ => .crash
      | .Print _ =>
        match stack with
        | _ :: s => run_types_loop ops fuel (ip + 1) s return_stack
        | _ => .crash
      | .SkipProc _ position _ _ => run_types_loop ops fuel position stack return_stack
      | .Call _ =>
        match stack with
        | .function_pointer position :: s =>
          run_types_loop ops fuel position s ((ip + 1) :: return_stack)
        | _ => .crash
      | .Return _ =>
        match return_stack with
        | r :: rs => run_types_loop ops fuel r stack rs
        | [] => .crash

/-- Modelled from the spec (see `run_types_loop`): run a signature
sub-program from position 0 with empty stacks and return its final value
stack. -/
def run_ops_types (ops : List Op) (fuel : Nat) : SigRunRes :=
  run_types_loop ops fuel 0 [] []

/-- Mirrors `BlockType` from `ops.rs`. -/
inductive BlockType where
  | If (position : Nat)
  | Else (skip_position : Nat)
  | While (position : Nat)
  | WhileBody (begin_position : Nat) (end_jump_position : Nat)
  | Proc (jump_past_position : Nat)
deriving Repr, DecidableEq

/-- The inner loop of the name search in the `Name` arm of `compile_ops`:
one scope's declarations, most recent first (`scope.iter().rev()`). -/
def find_name_in_scope (scope : List (String × Nat)) (name : String) : Option Nat :=
  match scope with
  | [] => none
  | (decl_name, position) :: rest =>
    if name = decl_name then some position else find_name_in_scope rest name

/-- The outer loop of the name search in the `Name` arm of `compile_ops`:
scopes innermost first (`scopes.iter().rev()`). -/
def find_name_in_scopes (scopes : List (List (String × Nat))) (name : String) : Option Nat :=
  match scopes with
  | [] => none
  | scope :: rest =>
    match find_name_in_scope scope name with
    | some position => some position
    | none => find_name_in_scopes rest name

/-- `*ops[i].get_condtional_jump_location_mut() = target`: overwrite the
target of the `ConditonalJump` at index `i`; `none` is the source's
`unreachable!()` when the op there has a different kind (or the index is out
of bounds). -/
def patch_condtional_jump (ops : List Op) (i : Nat) (target : Nat) : Option (List Op) :=
  match ops.get? i with
  | some (.ConditonalJump location _) => some (ops.set i (.ConditonalJump location target))
  | _ => none

/-- `*ops[i].get_jump_location_mut() = target` for `Jump` (see
`patch_condtional_jump`). -/
def patch_jump (ops : List Op) (i : Nat) (target : Nat) : Option (List Op) :=
  match ops.get? i with
  | some (.Jump location _) => some (ops.set i (.Jump location target))
  | _ => none

/-- `*ops[i].get_skip_procedure_jump_location_mut() = target` for `SkipProc`
(see `patch_condtional_jump`). -/
def patch_skip_proc (ops : List Op) (i : Nat) (target : Nat) : Option (List Op) :=
  match ops.get? i with
  | some (.SkipProc location _ parameters return_types) =>
    some (ops.set i (.SkipProc location target parameters return_types))
  | _ => none

/-- The signature-span collection loop of the `Proc` arm of `compile_ops`
(used once for the parameter list and once for the return list): consume
tokens while the parenthesis depth is non-zero or the next token is not the
closing parenthesis, stopping also at end-of-file; `OpenParenthesis` /
`CloseParenthesis` adjust the depth.  `none` means out of fuel. -/
def collect_paren_tokens {σ : Type} (tk : Tokenizer σ) :
    Nat → σ → Nat → List Token → Option (List Token × σ)
  | 0, _, _, _ => none
  | fuel + 1, s, depth, acc =>
    if (depth ≠ 0 ∨ tk.peek_kind s ≠ .closeParenthesis) ∧ tk.peek_kind s ≠ .endOfFile then
      let (token, s') := tk.next_token s
      let depth' : Nat :=
        if token.kind = .openParenthesis then depth + 1
        else if token.kind = .closeParenthesis then depth - 1
        else depth
      collect_paren_tokens tk fuel s' depth' (acc ++ [token])
    else
      some (acc, s)

/-- The value-harvesting loop of the `Proc` arm of `compile_ops`: the final
stack of a signature sub-program, iterated bottom-up (Rust iterates the
`Vec` from index 0), must consist of `Type` values only; the first non-type
value is a `SignatureError` at the opening parenthesis. -/
def values_to_types (open_location : SourceLocation) : List CValue → Except Error (List Ty)
  | [] => .ok []
  | value :: rest =>
    match value with
    | .type t =>
      match values_to_types open_location rest with
      | .ok ts => .ok (t :: ts)
      | .error e => .error e
    | _ =>
      .error { location := open_location,
               message := "Expected type on stack, got " ++ reprStr value }

/-- Local result of evaluating one signature span (parameter list or return
list) inside the `Proc` arm of `compile_ops`. -/
inductive SigStepRes (σ : Type) where
  | ok (types : List Ty) (s : σ)
  | error (e : Error)
  | crash
  | outOfFuel

/-- Result of `compile_ops`.  The source signature is
`Result<(), Error>` with the op list grown through `&mut Vec<Op>`; here `ok`
returns the grown op list together with the final (local, source-discarded)
block stack, so that theorems can speak about blocks left open at end of
file.  `crash` is a Rust panic: the `unwrap` on popping an empty block or
scope stack at `}`, the `unreachable!()` when a looked-up declaration is not
a `SkipProc` or a patched op has the wrong kind, and the `get_integer` /
`get_string` unwraps on tokens with mismatched payloads. -/
inductive CompileRes where
  | ok (ops : List Op) (block_stack : List BlockType)
  | error (e : Error)
  | crash
  | outOfFuel
deriving Repr

/-- The message of the catch-all `SyntaxError` arms of `compile_ops`
(`format!("Unexpected token '{:?}'", token.kind)`). -/
def unexpected_token_message (kind : TokenKind) : String :=
  "Unexpected token " ++ reprStr kind

/-- The main loop of `compile_ops` from `ops.rs`, one fuel unit per consumed
token.  `ops` grows at the end (`Vec` order, absolute indices from 0);
`block_stack` and `scopes` are stacks with head = `Vec` last; each scope is a
declaration list with head = most recently declared.  The nested signature
compilations of the `Proc` arm recurse with a fresh op list behind the
`TokenArray` tokenizer, exactly as the source does, and the signature
sub-programs are executed by the modelled `run_ops_types`. -/
def compile_loop (fuel : Nat) {σ : Type} (tk : Tokenizer σ) (s : σ) (ops : List Op)
    (block_stack : List BlockType) (scopes : List (List (String × Nat))) : CompileRes :=
  match fuel with
  | 0 => .outOfFuel
  | fuel + 1 =>
    let (token, s) := tk.next_token s
    match token.kind with
    | .endOfFile => .ok ops block_stack
    | .integer =>
      match token.data with
      | .integer value =>
        compile_loop fuel tk s (ops ++ [.PushInteger token.location value]) block_stack scopes
      | _ => .crash
    | .name =>
      match token.data with
      | .string name =>
        if name = "int" then
          compile_loop fuel tk s (ops ++ [.PushType token.location .integer]) block_stack scopes
        else if name = "bool" then
          compile_loop fuel tk s (ops ++ [.PushType token.location .bool]) block_stack scopes
        else if name = "type" then
          compile_loop fuel tk s (ops ++ [.PushType token.location .type]) block_stack scopes
        else
          match find_name_in_scopes scopes name with
          | some position =>
            match ops.get? position with
            | some (.SkipProc _ _ _ _) =>
              compile_loop fuel tk s
                (ops ++ [.PushFunctionPointer token.location (position + 1)])
                block_stack scopes
            | _ => .crash
          | none =>
            .error { location := token.location,
                     message := "Unable to find name " ++ name }
      | _ => .crash
    | .print =>
      compile_loop fuel tk s (ops ++ [.Print token.location]) block_stack scopes
    | .«if» =>
      let ops := ops ++ [.Not token.location]
      let block_stack := BlockType.If ops.length :: block_stack
      let scopes := [] :: scopes
      let ops := ops ++ [.ConditonalJump token.location 0]
      match tk.expect_token s .openBrace with
      | .error e => .error e
      | .ok (_, s) => compile_loop fuel tk s ops block_stack scopes
    | .«while» =>
      compile_loop fuel tk s ops (BlockType.While ops.length :: block_stack) scopes
    | .call =>
      compile_loop fuel tk s (ops ++ [.Call token.location]) block_stack scopes
    | .openBrace =>
      match block_stack with
      | BlockType.While position :: rest_blocks =>
        let ops := ops ++ [.Not token.location]
        let block_stack := BlockType.WhileBody position ops.length :: rest_blocks
        let ops := ops ++ [.ConditonalJump token.location 0]
        let scopes := [] :: scopes
        compile_loop fuel tk s ops block_stack scopes
      | _ =>
        .error { location := token.location, message := unexpected_token_message token.kind }
    | .dup =>
      compile_loop fuel tk s (ops ++ [.Dup token.location]) block_stack scopes
    | .drop =>
      compile_loop fuel tk s (ops ++ [.Drop token.location]) block_stack scopes
    | .swap =>
      compile_loop fuel tk s (ops ++ [.Swap token.location]) block_stack scopes
    | .proc =>
      let name_step : Except Error (Option Token × σ) :=
        if tk.peek_kind s ≠ .openParenthesis then
          match tk.expect_token s .name with
          | .error e => .error e
          | .ok (t, s) => .ok (some t, s)
        else .ok (none, s)
      match name_step with
      | .error e => .error e
      | .ok (name_token, s) =>
        match tk.expect_token s .openParenthesis with
        | .error e => .error e
        | .ok (open_paraentheis_token, s) =>
          match collect_paren_tokens tk fuel s 0 [] with
          | none => .outOfFuel
          | some (parameter_tokens, s) =>
            match tk.expect_token s .closeParenthesis with
            | .error e => .error e
            | .ok (close_parenthesis_token, s) =>
              match compile_loop fuel tokenArrayTokenizer
                  { filepath := token.location.filepath, tokens := parameter_tokens,
                    position := 0 }
                  [] [] [[]] with
              | .error e => .error e
              | .crash => .crash
              | .outOfFuel => .outOfFuel
              | .ok parameter_ops _ =>
                let parameter_ops := parameter_ops ++ [.Exit close_parenthesis_token.location]
                match run_ops_types parameter_ops fuel with
                | .crash => .crash
                | .outOfFuel => .outOfFuel
                | .halted parameter_stack =>
                  match values_to_types open_paraentheis_token.location
                      parameter_stack.reverse with
                  | .error e => .error e
                  | .ok parameters =>
                    let returns_step : SigStepRes σ :=
                      if tk.peek_kind s = .rightArrow then
                        match tk.expect_token s .rightArrow with
                        | .error e => .error e
                        | .ok (_, s) =>
                          match tk.expect_token s .openParenthesis with
                          | .error e => .error e
                          | .ok (open_paraentheis_token, s) =>
                            match collect_paren_tokens tk fuel s 0 [] with
                            | none => .outOfFuel
                            | some (return_type_tokens, s) =>
                              match tk.expect_token s .closeParenthesis with
                              | .error e => .error e
                              | .ok (close_parenthesis_token, s) =>
                                match compile_loop fuel tokenArrayTokenizer
                                    { filepath := token.location.filepath,
                                      tokens := return_type_tokens, position := 0 }
                                    [] [] [[]] with
                                | .error e => .error e
                                | .crash => .crash
                                | .outOfFuel => .outOfFuel
                                | .ok return_type_ops _ =>
                                  let return_type_ops :=
                                    return_type_ops ++ [.Exit close_parenthesis_token.location]
                                  match run_ops_types return_type_ops fuel with
                                  | .crash => .crash
                                  | .outOfFuel => .outOfFuel
                                  | .halted return_type_stack =>
                                    match values_to_types open_paraentheis_token.location
                                        return_type_stack.reverse with
                                    | .error e => .error e
                                    | .ok return_types => .ok return_types s
                      else .ok [] s
                    match returns_step with
                    | .error e => .error e
                    | .crash => .crash
                    | .outOfFuel => .outOfFuel
                    | .ok return_types s =>
                      match name_token with
                      | some name_token =>
                        match tk.expect_token s .openBrace with
                        | .error e => .error e
                        | .ok (_, s) =>
                          let block_stack := BlockType.Proc ops.length :: block_stack
                          match scopes with
                          | [] => .crash
                          | scope :: rest_scopes =>
                            match name_token.data with
                            | .string name =>
                              let scopes :=
                                [] :: ((name, ops.length) :: scope) :: rest_scopes
                              let ops :=
                                ops ++ [.SkipProc token.location 0 parameters return_types]
                              compile_loop fuel tk s ops block_stack scopes
                            | _ => .crash
                      | none =>
                        compile_loop fuel tk s
                          (ops ++ [.PushType token.location
                            (.procedure parameters return_types)])
                          block_stack scopes
    | .closeBrace =>
      match block_stack with
      | [] => .crash
      | block_type :: block_stack =>
        match scopes with
        | [] => .crash
        | _ :: scopes =>
          match block_type with
          | .If position =>
            if tk.peek_kind s = .«else» then
              let (else_token, s) := tk.next_token s
              let block_stack := BlockType.Else ops.length :: block_stack
              let scopes := [] :: scopes
              let ops := ops ++ [.Jump else_token.location 0]
              match tk.expect_token s .openBrace with
              | .error e => .error e
              | .ok (_, s) =>
                match patch_condtional_jump ops position ops.length with
                | none => .crash
                | some ops => compile_loop fuel tk s ops block_stack scopes
            else
              match patch_condtional_jump ops position ops.length with
              | none => .crash
              | some ops => compile_loop fuel tk s ops block_stack scopes
          | .Else skip_position =>
            match patch_jump ops skip_position ops.length with
            | none => .crash
            | some ops => compile_loop fuel tk s ops block_stack scopes
          | .While _ =>
            .error { location := token.location, message := unexpected_token_message token.kind }
          | .WhileBody begin_position end_jump_position =>
            let ops := ops ++ [.Jump token.location begin_position]
            match patch_condtional_jump ops end_jump_position ops.length with
            | none => .crash
            | some ops => compile_loop fuel tk s ops block_stack scopes
          | .Proc jump_past_position =>
            let ops := ops ++ [.Return token.location]
            match patch_skip_proc ops jump_past_position ops.length with
            | none => .crash
            | some ops => compile_loop fuel tk s ops block_stack scopes
    | .plus =>
      compile_loop fuel tk s (ops ++ [.AddInteger token.location]) block_stack scopes
    | .minus =>
      compile_loop fuel tk s (ops ++ [.SubtractInteger token.location]) block_stack scopes
    | .asterisk =>
      compile_loop fuel tk s (ops ++ [.MultiplyInteger token.location]) block_stack scopes
    | .slash =>
      compile_loop fuel tk s (ops ++ [.DivideInteger token.location]) block_stack scopes
    | .lessThan =>
      compile_loop fuel tk s (ops ++ [.LessThanInteger token.location]) block_stack scopes
    | .greaterThan =>
      compile_loop fuel tk s (ops ++ [.GreaterThanInteger token.location]) block_stack scopes
    | .lessThanEqual =>
      compile_loop fuel tk s (ops ++ [.LessThanEqualInteger token.location]) block_stack scopes
    | .greaterThanEqual =>
      compile_loop fuel tk s
        (ops ++ [.GreaterThanEqualInteger token.location]) block_stack scopes
    | .equalEqual =>
      compile_loop fuel tk s (ops ++ [.Equal token.location]) block_stack scopes
    | .notEqual =>
      compile_loop fuel tk s (ops ++ [.NotEqual token.location]) block_stack scopes
    | .not =>
      compile_loop fuel tk s (ops ++ [.Not token.location]) block_stack scopes
    | .«else» =>
      .error { location := token.location, message := unexpected_token_message token.kind }
    | .equal =>
      .error { location := token.location, message := unexpected_token_message token.kind }
    | .memory =>
      .error { location := token.location, message := unexpected_token_message token.kind }
    | .openParenthesis =>
      .error { location := token.location, message := unexpected_token_message token.kind }
    | .closeParenthesis =>
      .error { location := token.location, message := unexpected_token_message token.kind }
    | .rightArrow =>
      .error { location := token.location, message := unexpected_token_message token.kind }

/-- Mirrors `compile_ops` from `ops.rs`: the main loop above, entered with an
empty block stack and a single empty scope. -/
def compile_ops {σ : Type} (tk : Tokenizer σ) (s : σ) (ops : List Op) (fuel : Nat) :
    CompileRes :=
  compile_loop fuel tk s ops [] [[]]

/-- Modelled from the spec: the top-level pipeline of §2 — the compiler
consumes the token stream and the completed op list is terminated with `Exit`
before it reaches the type checker and the interpreter (the `ops.rs`
generation's `main` is not among the sources; the in-source signature path
of `compile_ops` and the older `main.rs` generation both append `Exit` right
after a successful `compile_ops`). -/
def compile_program (tokens : List Token) (fuel : Nat) : CompileRes :=
  match compile_ops streamTokenizer tokens [] fuel with
  | .ok ops block_stack => .ok (ops ++ [.Exit stream_eof_token.location]) block_stack
  | r => r

/-- Result of evaluating one signature span end to end. -/
inductive SigEvalRes where
  | ok (types : List Ty)
  | error (e : Error)
  | crash
  | outOfFuel
deriving Repr

/-- The signature-evaluation pipeline performed by the `Proc` arm of
`compile_loop` for each collected span (parameter list and return list),
as a standalone function: compile the raw token span through a fresh
`compile_ops` invocation driven by the array-backed `TokenArray` tokenizer
into its own op list, terminate that list with `Exit` at the closing
parenthesis, execute it immediately with the interpreter, and harvest the
resulting stack bottom-up, requiring every value to be a `Type` value (the
first non-type value is the signature error at the opening parenthesis).
The `Proc` arm above performs exactly this composition inline, twice. -/
def eval_sig_tokens (fuel : Nat) (filepath : String) (tokens : List Token)
    (open_location close_location : SourceLocation) : SigEvalRes :=
  match compile_loop fuel tokenArrayTokenizer
      { filepath := filepath, tokens := tokens, position := 0 } [] [] [[]] with
  | .error e => .error e
  | .crash => .crash
  | .outOfFuel => .outOfFuel
  | .ok sig_ops _ =>
    match run_ops_types (sig_ops ++ [.Exit close_location]) fuel with
    | .crash => .crash
    | .outOfFuel => .outOfFuel
    | .halted stack =>
      match values_to_types open_location stack.reverse with
      | .error e => .error e
      | .ok types => .ok types

/-- Is this value the `Type` variant (the test of the harvesting loop)? -/
def CValue.is_type : CValue → Bool
  | .type _ => true
  | _ => false

/-- The token kinds that reach the catch-all `_` arm of `compile_loop`'s
match and are rejected as unexpected wherever they appear (`Else` and
`Equal` have no arm of their own in `compile_ops`; `Memory`,
`OpenParenthesis`, `CloseParenthesis` and `RightArrow` are consumed only
inside the `Proc` arm). -/
def TokenKind.is_unhandled : TokenKind → Bool
  | .«else» => true
  | .equal => true
  | .memory => true
  | .openParenthesis => true
  | .closeParenthesis => true
  | .rightArrow => true
  | _ => false

end SBL

namespace Lex

/-!
Embedding of `lexer.rs`.  This file belongs to an older generation of the
project (its keyword table is `print_int` / `if` / `else` / `while`), with
its own `TokenKind`; the claims about it concern only its token contract for
integer literals, which is embedded here in full.
-/

/-- Mirrors `TokenKind` from `lexer.rs`. -/
inductive TokenKind where
  | endOfFile
  | integer
  | name
  | printInt
  | «if»
  | «else»
  | «while»
  | openBrace
  | closeBrace
  | not
  | plus
  | minus
  | asterisk
  | slash
  | equal
  | notEqual
deriving Repr, DecidableEq

/-- Mirrors `TokenData` from `lexer.rs`. -/
inductive TokenData where
  | none
  | integer (value : Int)
  | string (value : String)
deriving Repr, DecidableEq

/-- Mirrors `Token` from `lexer.rs`. -/
structure Token where
  kind : TokenKind
  location : SBL.SourceLocation
  length : Nat
  data : TokenData
deriving Repr, DecidableEq

/-- Mirrors `Lexer` from `lexer.rs`: the source as a character array plus the
current location. -/
structure Lexer where
  source : List Char
  location : SBL.SourceLocation
deriving Repr, DecidableEq

/-- Mirrors `Lexer::new`. -/
def Lexer.new (filepath : String) (source : String) : Lexer :=
  { source := source.data
    location := { filepath := filepath, position := 0, line := 1, column := 1 } }

/-- Mirrors `Lexer::peek_char`: the character at the current position, or
`'\0'` past the end. -/
def Lexer.peek_char (lx : Lexer) : Char :=
  if lx.location.position < lx.source.length then
    lx.source.getD lx.location.position (Char.ofNat 0)
  else
    Char.ofNat 0

/-- Mirrors `Lexer::next_char`: return the peeked character and advance
(position and column always, line/column reset on a newline). -/
def Lexer.next_char (lx : Lexer) : Char × Lexer :=
  let chr := lx.peek_char
  let location := { lx.location with
                    position := lx.location.position + 1
                    column := lx.location.column + 1 }
  let location :=
    if chr = '\n' then { location with line := location.line + 1, column := 1 }
    else location
  (chr, { lx with location := location })

/-- Mirrors the `LEXER_KEYWORDS` table of `lexer.rs`. -/
def lexer_keywords (name : String) : Option TokenKind :=
  if name = "print_int" then some .printInt
  else if name = "if" then some .«if»
  else if name = "else" then some .«else»
  else if name = "while" then some .«while»
  else none

/-- Mirrors the `LEXER_SINGLE_CHARS` table of `lexer.rs`. -/
def lexer_single_chars (chr : Char) : Option TokenKind :=
  if chr = '{' then some .openBrace
  else if chr = '}' then some .closeBrace
  else if chr = '!' then some .not
  else if chr = '+' then some .plus
  else if chr = '-' then some .minus
  else if chr = '*' then some .asterisk
  else if chr = '/' then some .slash
  else if chr = '=' then some .equal
  else none

/-- Mirrors the `LEXER_DOUBLE_CHARS` table of `lexer.rs`
(only `!` followed by `=`). -/
def lexer_double_chars (chr chr2 : Char) : Option TokenKind :=
  if chr = '!' then (if chr2 = '=' then some .notEqual else none) else none

/-- Is `c` a decimal digit (`'0'..='9'`)? -/
def is_digit (c : Char) : Bool := '0' ≤ c && c ≤ '9'

/-- Is `c` an upper-case letter (`'A'..='Z'`)? -/
def is_upper (c : Char) : Bool := 'A' ≤ c && c ≤ 'Z'

/-- Is `c` a lower-case letter (`'a'..='z'`)? -/
def is_lower (c : Char) : Bool := 'a' ≤ c && c ≤ 'z'

/-- The digit-value computation of the integer branch of `next_token`:
`'0'..='9'` map to 0–9, letters map to 10–35. -/
def digit_value (chr : Char) : Int :=
  if is_digit chr then Int.ofNat chr.toNat - Int.ofNat '0'.toNat
  else if is_upper chr then Int.ofNat chr.toNat - Int.ofNat 'A'.toNat + 10
  else Int.ofNat chr.toNat - Int.ofNat 'a'.toNat + 10

/-- Result of one lexer operation. -/
inductive LexRes where
  | ok (token : Token) (lexer : Lexer)
  | error (e : SBL.Error)
  | outOfFuel
deriving Repr, DecidableEq

/-- Result of the integer-literal digit loop. -/
inductive IntLoopRes where
  | ok (value : Int) (lexer : Lexer)
  | error (e : SBL.Error)
  | outOfFuel
deriving Repr, DecidableEq

/-- The digit loop of the integer branch of `Lexer::next_token`: for every
alphanumeric character, validate its digit value against the base (a value
at least the base is the "Digit is too big" lexical error at the current
location) and accumulate `value * base + digit`; `'_'` is consumed and
skipped; any other character ends the literal. -/
def lex_int_loop (base : Int) : Nat → Int → Lexer → IntLoopRes
  | 0, _, _ => .outOfFuel
  | fuel + 1, int_value, lx =>
    let chr := lx.peek_char
    if is_digit chr || is_upper chr || is_lower chr then
      let value := digit_value chr
      if base ≤ value then
        .error { location := lx.location,
                 message := "Digit '" ++ String.mk [chr] ++ "' is too big for base " ++
                   toString base }
      else
        lex_int_loop base fuel (int_value * base + value) (lx.next_char).2
    else if chr = '_' then
      lex_int_loop base fuel int_value (lx.next_char).2
    else
      .ok int_value lx

/-- The identifier loop of `Lexer::next_token`: accumulate
letters/digits/underscores.  Cannot fail; `none` is out of fuel. -/
def lex_name_loop : Nat → String → Lexer → Option (String × Lexer)
  | 0, _, _ => none
  | fuel + 1, name, lx =>
    let c := lx.peek_char
    if is_upper c || is_lower c || is_digit c || c = '_' then
      let (chr, lx) := lx.next_char
      lex_name_loop fuel (name.push chr) lx
    else
      some (name, lx)

/-- Mirrors `Lexer::next_token` from `lexer.rs`, one fuel unit per iteration
of the whitespace-skipping outer loop (the inner digit/identifier loops get
the remaining fuel).  Note, faithfully to the source: in the integer branch,
when the literal starts with `'0'` the `'0'` is consumed and the base is
chosen by *peeking* at the next character (`b`/`o`/`d`/`x`), but that base
letter is **not** consumed — the digit loop then reads it as an ordinary
alphanumeric character. -/
def Lexer.next_token : Nat → Lexer → LexRes
  | 0, _ => .outOfFuel
  | fuel + 1, lx =>
    let start_location := lx.location
    let c := lx.peek_char
    if c = Char.ofNat 0 then
      .ok { kind := .endOfFile, location := start_location
            length := lx.location.position - start_location.position
            data := .none } lx
    else if c = ' ' || c = '\t' || c = '\n' || c = '\r' then
      Lexer.next_token fuel (lx.next_char).2
    else if is_digit c then
      let baseStep : Int × Lexer :=
        if lx.peek_char = '0' then
          let lx := (lx.next_char).2
          let base : Int :=
            if lx.peek_char = 'b' then 2
            else if lx.peek_char = 'o' then 8
            else if lx.peek_char = 'd' then 10
            else if lx.peek_char = 'x' then 16
            else 10
          (base, lx)
        else (10, lx)
      match lex_int_loop baseStep.1 fuel 0 baseStep.2 with
      | .error e => .error e
      | .outOfFuel => .outOfFuel
      | .ok int_value lx =>
        .ok { kind := .integer, location := start_location
              length := lx.location.position - start_location.position
              data := .integer int_value } lx
    else if is_upper c || is_lower c || c = '_' then
      match lex_name_loop fuel "" lx with
      | none => .outOfFuel
      | some (name, lx) =>
        match lexer_keywords name with
        | some kind =>
          .ok { kind := kind, location := start_location
                length := lx.location.position - start_location.position
                data := .none } lx
        | none =>
          .ok { kind := .name, location := start_location
                length := lx.location.position - start_location.position
                data := .string name } lx
    else
      let (chr, lx) := lx.next_char
      match lexer_double_chars chr lx.peek_char with
      | some _ =>
        let (chr2, lx) := lx.next_char
        match lexer_double_chars chr chr2 with
        | some kind =>
          .ok { kind := kind, location := start_location
                length := lx.location.position - start_location.position
                data := .none } lx
        | none => .error { location := start_location,
                           message := "Unknown character '" ++ String.mk [chr] ++ "'" }
      | none =>
        match lexer_single_chars chr with
        | some kind =>
          .ok { kind := kind, location := start_location
                length := lx.location.position - start_location.position
                data := .none } lx
        | none =>
          .error { location := start_location,
                   message := "Unknown character '" ++ String.mk [chr] ++ "'" }

end Lex

/-- The kind of the token returned by a successful lexer step, if any. -/
def Lex.LexRes.ok_kind : Lex.LexRes → Option Lex.TokenKind
  | .ok token _ => some token.kind
  | _ => none

namespace SBL

/-! ### Concrete programs used by the theorems below -/

/-- A distinct source location for each op/token of a sample program. -/
def sample_loc (n : Nat) : SourceLocation :=
  { filepath := "sample", position := n, line := 1, column := n + 1 }

/-- An op list accepted by the type checker whose execution pops a `Bool`
inside `AddInteger`.  One stack slot starts as an `Integer` and is turned
into a `Bool` by the loop body (`x + 1`, then `== 0`); the checker explores
the loop-exit path and exactly one body iteration, both of which end
cleanly, but the second runtime iteration feeds the `Bool` to
`AddInteger`. -/
def unsound_ops : List Op :=
  [.PushInteger (sample_loc 0) 7,
   .PushInteger (sample_loc 1) 0,
   .PushInteger (sample_loc 2) 0,
   .Equal (sample_loc 3),
   .ConditonalJump (sample_loc 4) 7,
   .Drop (sample_loc 5),
   .Exit (sample_loc 6),
   .PushInteger (sample_loc 7) 1,
   .AddInteger (sample_loc 8),
   .PushInteger (sample_loc 9) 0,
   .Equal (sample_loc 10),
   .Jump (sample_loc 11) 1]

/-- An op list whose conditional jump has an error on each side: the
fallthrough side (position 4) and the jump side (position 6) both apply
`Not` to an empty stack.  Whichever error `type_check_ops` reports reveals
which side of the fork is explored first. -/
def order_probe_ops : List Op :=
  [.PushInteger (sample_loc 0) 0,
   .PushInteger (sample_loc 1) 0,
   .Equal (sample_loc 2),
   .ConditonalJump (sample_loc 3) 6,
   .Not (sample_loc 4),
   .Exit (sample_loc 5),
   .Not (sample_loc 6)]

/-- The location reported by a `CheckRes` error, if any. -/
def CheckRes.error_location : CheckRes → Option SourceLocation
  | .error e => some e.location
  | _ => none

/-- A sample token of the given kind with no payload. -/
def sample_tok (kind : TokenKind) (n : Nat) : Token :=
  { kind := kind, location := sample_loc n, length := 1, data := .none }

/-- A sample integer-literal token. -/
def sample_int_tok (value : Int) (n : Nat) : Token :=
  { kind := .integer, location := sample_loc n, length := 1, data := .integer value }

/-- A sample identifier token. -/
def sample_name_tok (name : String) (n : Nat) : Token :=
  { kind := .name, location := sample_loc n, length := name.length, data := .string name }

/-- The positions carried by the jump-like ops (`Jump`, `ConditonalJump`,
`SkipProc`); empty for every other op. -/
def Op.targets : Op → List Nat
  | .Jump _ position => [position]
  | .ConditonalJump _ position => [position]
  | .SkipProc _ position _ _ => [position]
  | _ => []

/-! ### Claim C1 -/

/-- The straight-line fragment of the op set: every op except the forking /
procedure ops (`ConditonalJump`, `PushFunctionPointer`, `SkipProc`, `Call`,
`Return`) and the two ops the `execution.rs` interpreter has no arm for
(`PushType`, `Swap`). -/
def Op.isBasic : Op → Bool
  | .Exit _ => true
  | .PushInteger _ _ => true
  | .AddInteger _ => true
  | .SubtractInteger _ => true
  | .MultiplyInteger _ => true
  | .DivideInteger _ => true
  | .LessThanInteger _ => true
  | .GreaterThanInteger _ => true
  | .LessThanEqualInteger _ => true
  | .GreaterThanEqualInteger _ => true
  | .Equal _ => true
  | .NotEqual _ => true
  | .Not _ => true
  | .Dup _ => true
  | .Drop _ => true
  | .Print _ => true
  | .Jump _ _ => true
  | _ => false

/-- Correspondence between the checker's symbolic stack and the runtime
operand stack: same height, and slotwise the symbolic type is the runtime
value's tag (only `Integer` and `Bool` slots arise on the basic
fragment). -/
inductive StackCorr : List (Ty × SourceLocation) → List Value → Prop where
  | nil : StackCorr [] []
  | int {t : List (Ty × SourceLocation)} {v : List Value} {l : SourceLocation} {n : Int} :
      StackCorr t v → StackCorr ((Ty.integer, l) :: t) (Value.integer n :: v)
  | bool {t : List (Ty × SourceLocation)} {v : List Value} {l : SourceLocation} {b : Bool} :
      StackCorr t v → StackCorr ((Ty.bool, l) :: t) (Value.bool b :: v)

/-- `Ty.beq` against the literal `integer` forces equality. -/
theorem Ty.beq_integer {t : Ty} (h : Ty.beq t .integer = true) : t = .integer := by
  cases t <;> simp [Ty.beq] at h ⊢

/-- `Ty.beq` against the literal `bool` forces equality. -/
theorem Ty.beq_bool {t : Ty} (h : Ty.beq t .bool = true) : t = .bool := by
  cases t <;> simp [Ty.beq] at h ⊢

/-- `Ty.beq` with the literal `integer` on the left forces equality. -/
theorem Ty.integer_beq_rev {t : Ty} (h : Ty.beq .integer t = true) : t = .integer := by
  cases t <;> simp [Ty.beq] at h ⊢

/-- `Ty.beq` with the literal `bool` on the left forces equality. -/
theorem Ty.bool_beq_rev {t : Ty} (h : Ty.beq .bool t = true) : t = .bool := by
  cases t <;> simp [Ty.beq] at h ⊢

/-- A successful step of the argument-checking loop on a first entry:
that entry's type passes `Ty.beq` and the loop continues. -/
theorem check_arg_types_none_cons {t : Ty} {tloc : SourceLocation}
    {stk : List (Ty × SourceLocation)} {ty : Ty} {tys : List Ty} {i : Nat}
    (h : check_arg_types ((t, tloc) :: stk) (ty :: tys) i = none) :
    Ty.beq t ty = true ∧ check_arg_types stk tys (i + 1) = none := by
  rw [check_arg_types] at h
  split at h
  · rename_i hcond
    exact ⟨hcond, h⟩
  · exact Option.noConfusion h

/-- Successful `expect_types` against a two-type list: the stack starts with
two entries whose types pass `Ty.beq` against the expected ones (the deeper
entry against the first expected type), and they are popped. -/
theorem expect_types_two {stack : List (Ty × SourceLocation)} {loc : SourceLocation}
    {t1 t2 : Ty} {s : List (Ty × SourceLocation)}
    (h : expect_types stack loc [t1, t2] = .ok s) :
    ∃ x y t, stack = x :: y :: t ∧ Ty.beq y.1 t1 = true ∧ Ty.beq x.1 t2 = true ∧ s = t := by
  match stack with
  | [] => simp [expect_types, expect_type_count] at h
  | [x] => simp [expect_types, expect_type_count] at h
  | (xt, xl) :: (yt, yl) :: t =>
    refine ⟨(xt, xl), (yt, yl), t, rfl, ?_⟩
    rw [show expect_types ((xt, xl) :: (yt, yl) :: t) loc [t1, t2] =
        (match check_arg_types [(yt, yl), (xt, xl)] [t1, t2] 0 with
          | some e => Except.error
              { location := loc
                message := e.message ++ "; Incorrect type came from here: " ++
                  e.location.filepath ++ ":" ++ toString e.location.line ++ ":" ++
                  toString e.location.column }
          | none => Except.ok t) from rfl] at h
    split at h
    · exact Except.noConfusion h
    · rename_i hnone
      cases h
      obtain ⟨hy, hrest⟩ := check_arg_types_none_cons hnone
      obtain ⟨hx, _⟩ := check_arg_types_none_cons hrest
      exact ⟨hy, hx, rfl⟩

/-- Successful `expect_types` against a one-type list: the stack starts with
an entry whose type passes `Ty.beq` against the expected one, and it is
popped. -/
theorem expect_types_one {stack : List (Ty × SourceLocation)} {loc : SourceLocation}
    {t1 : Ty} {s : List (Ty × SourceLocation)}
    (h : expect_types stack loc [t1] = .ok s) :
    ∃ x t, stack = x :: t ∧ Ty.beq x.1 t1 = true ∧ s = t := by
  match stack with
  | [] => simp [expect_types, expect_type_count] at h
  | (xt, xl) :: t =>
    refine ⟨(xt, xl), t, rfl, ?_⟩
    rw [show expect_types ((xt, xl) :: t) loc [t1] =
        (match check_arg_types [(xt, xl)] [t1] 0 with
          | some e => Except.error
              { location := loc
                message := e.message ++ "; Incorrect type came from here: " ++
                  e.location.filepath ++ ":" ++ toString e.location.line ++ ":" ++
                  toString e.location.column }
          | none => Except.ok t) from rfl] at h
    split at h
    · exact Except.noConfusion h
    · rename_i hnone
      cases h
      obtain ⟨hx, _⟩ := check_arg_types_none_cons hnone
      exact ⟨hx, rfl⟩

/-- `popValue` on a non-empty stack. -/
theorem popValue_cons (x : Value) (v : List Value) : popValue (x :: v) = .ok (x, v) := rfl

/-- `popInteger` on a stack topped by an `Integer`. -/
theorem popInteger_cons (n : Int) (v : List Value) :
    popInteger (Value.integer n :: v) = .ok (n, v) := rfl

/-- `popBool` on a stack topped by a `Bool`. -/
theorem popBool_cons (b : Bool) (v : List Value) :
    popBool (Value.bool b :: v) = .ok (b, v) := rfl

/-- Lockstep soundness of the type checker on the basic fragment: on op
lists built only from `isBasic` ops the checker runs a single context whose
instruction pointer follows exactly the runtime's, so if the checker accepts
from a context whose symbolic stack matches the runtime stack slotwise, the
runtime from the same position can only halt, run out of fuel, or trap on
division by zero — it never underflows, never pops a wrong tag, and never
otherwise crashes. -/
theorem check_basic_lockstep (ops : List Op) (hall : ops.all Op.isBasic = true) :
    ∀ fc (c : Context) (vals : List Value) (rets : List Nat) (fr : Nat),
      type_check_loop ops fc [c] = .ok →
      StackCorr c.stack vals →
      run_loop ops fr c.ip vals rets = .halted ∨
      run_loop ops fr c.ip vals rets = .outOfFuel ∨
      run_loop ops fr c.ip vals rets = .divByZero := by
  intro fc
  induction fc with
  | zero =>
    intro c vals rets fr hok _
    simp [type_check_loop] at hok
  | succ fc ih =>
    intro c vals rets fr hok hcorr
    cases fr with
    | zero => exact Or.inr (Or.inl rfl)
    | succ fr =>
      cases hop : ops.get? c.ip with
      | none =>
        simp only [type_check_loop, hop] at hok
        exact CheckRes.noConfusion hok
      | some op =>
        have hbasic : op.isBasic = true :=
          (List.all_eq_true.mp hall) op (List.get?_mem hop)
        cases op with
        | Exit location =>
          simp only [type_check_loop, hop] at hok
          split at hok
          · exact CheckRes.noConfusion hok
          · exact Or.inl (by simp only [run_loop, hop])
        | PushInteger location value =>
          simp only [type_check_loop, hop] at hok
          simp only [run_loop, hop]
          exact ih _ (.integer value :: vals) rets fr hok (.int hcorr)
        | AddInteger location =>
          simp only [type_check_loop, hop] at hok
          split at hok
          · exact CheckRes.noConfusion hok
          · rename_i s heq
            obtain ⟨⟨xt, xl⟩, ⟨yt, yl⟩, t, hstack, hby, hbx, hst⟩ := expect_types_two heq
            cases Ty.beq_integer hby
            cases Ty.beq_integer hbx
            subst hst
            rw [hstack] at hcorr
            cases hcorr with
            | @int _ _ _ n hcorr2 =>
              cases hcorr2 with
              | @int _ _ _ m hcorr3 =>
                simp only [run_loop, hop, popInteger_cons]
                exact ih _ _ rets fr hok (.int hcorr3)
        | SubtractInteger location =>
          simp only [type_check_loop, hop] at hok
          split at hok
          · exact CheckRes.noConfusion hok
          · rename_i s heq
            obtain ⟨⟨xt, xl⟩, ⟨yt, yl⟩, t, hstack, hby, hbx, hst⟩ := expect_types_two heq
            cases Ty.beq_integer hby
            cases Ty.beq_integer hbx
            subst hst
            rw [hstack] at hcorr
            cases hcorr with
            | @int _ _ _ n hcorr2 =>
              cases hcorr2 with
              | @int _ _ _ m hcorr3 =>
                simp only [run_loop, hop, popInteger_cons]
                exact ih _ _ rets fr hok (.int hcorr3)
        | MultiplyInteger location =>
          simp only [type_check_loop, hop] at hok
          split at hok
          · exact CheckRes.noConfusion hok
          · rename_i s heq
            obtain ⟨⟨xt, xl⟩, ⟨yt, yl⟩, t, hstack, hby, hbx, hst⟩ := expect_types_two heq
            cases Ty.beq_integer hby
            cases Ty.beq_integer hbx
            subst hst
            rw [hstack] at hcorr
            cases hcorr with
            | @int _ _ _ n hcorr2 =>
              cases hcorr2 with
              | @int _ _ _ m hcorr3 =>
                simp only [run_loop, hop, popInteger_cons]
                exact ih _ _ rets fr hok (.int hcorr3)
        | DivideInteger location =>
          simp only [type_check_loop, hop] at hok
          split at hok
          · exact CheckRes.noConfusion hok
          · rename_i s heq
            obtain ⟨⟨xt, xl⟩, ⟨yt, yl⟩, t, hstack, hby, hbx, hst⟩ := expect_types_two heq
            cases Ty.beq_integer hby
            cases Ty.beq_integer hbx
            subst hst
            rw [hstack] at hcorr
            cases hcorr with
            | @int _ _ _ n hcorr2 =>
              cases hcorr2 with
              | @int _ _ _ m hcorr3 =>
                simp only [run_loop, hop, popInteger_cons]
                by_cases hn : n = 0
                · simp only [hn, if_pos rfl]
                  exact Or.inr (Or.inr rfl)
                · rw [if_neg hn]
                  exact ih _ _ rets fr hok (.int hcorr3)
        | LessThanInteger location =>
          simp only [type_check_loop, hop] at hok
          split at hok
          · exact CheckRes.noConfusion hok
          · rename_i s heq
            obtain ⟨⟨xt, xl⟩, ⟨yt, yl⟩, t, hstack, hby, hbx, hst⟩ := expect_types_two heq
            cases Ty.beq_integer hby
            cases Ty.beq_integer hbx
            subst hst
            rw [hstack] at hcorr
            cases hcorr with
            | @int _ _ _ n hcorr2 =>
              cases hcorr2 with
              | @int _ _ _ m hcorr3 =>
                simp only [run_loop, hop, popInteger_cons]
                exact ih _ _ rets fr hok (.bool hcorr3)
        | GreaterThanInteger location =>
          simp only [type_check_loop, hop] at hok
          split at hok
          · exact CheckRes.noConfusion hok
          · rename_i s heq
            obtain ⟨⟨xt, xl⟩, ⟨yt, yl⟩, t, hstack, hby, hbx, hst⟩ := expect_types_two heq
            cases Ty.beq_integer hby
            cases Ty.beq_integer hbx
            subst hst
            rw [hstack] at hcorr
            cases hcorr with
            | @int _ _ _ n hcorr2 =>
              cases hcorr2 with
              | @int _ _ _ m hcorr3 =>
                simp only [run_loop, hop, popInteger_cons]
                exact ih _ _ rets fr hok (.bool hcorr3)
        | LessThanEqualInteger location =>
          simp only [type_check_loop, hop] at hok
          split at hok
          · exact CheckRes.noConfusion hok
          · rename_i s heq
            obtain ⟨⟨xt, xl⟩, ⟨yt, yl⟩, t, hstack, hby, hbx, hst⟩ := expect_types_two heq
            cases Ty.beq_integer hby
            cases Ty.beq_integer hbx
            subst hst
            rw [hstack] at hcorr
            cases hcorr with
            | @int _ _ _ n hcorr2 =>
              cases hcorr2 with
              | @int _ _ _ m hcorr3 =>
                simp only [run_loop, hop, popInteger_cons]
                exact ih _ _ rets fr hok (.bool hcorr3)
        | GreaterThanEqualInteger location =>
          simp only [type_check_loop, hop] at hok
          split at hok
          · exact CheckRes.noConfusion hok
          · rename_i s heq
            obtain ⟨⟨xt, xl⟩, ⟨yt, yl⟩, t, hstack, hby, hbx, hst⟩ := expect_types_two heq
            cases Ty.beq_integer hby
            cases Ty.beq_integer hbx
            subst hst
            rw [hstack] at hcorr
            cases hcorr with
            | @int _ _ _ n hcorr2 =>
              cases hcorr2 with
              | @int _ _ _ m hcorr3 =>
                simp only [run_loop, hop, popInteger_cons]
                exact ih _ _ rets fr hok (.bool hcorr3)
        | Equal location =>
          simp only [type_check_loop, hop] at hok
          split at hok
          · exact CheckRes.noConfusion hok
          · split at hok
            · rename_i typ hstack2
              split at hok
              · exact CheckRes.noConfusion hok
              · rename_i s heq
                obtain ⟨⟨xt, xl⟩, ⟨yt, yl⟩, t, hstack, hby, hbx, hst⟩ := expect_types_two heq
                subst hst
                rw [hstack] at hcorr
                cases hcorr with
                | @int _ _ _ n hcorr2 =>
                  cases hcorr2 with
                  | @int _ _ _ m hcorr3 =>
                    simp only [run_loop, hop, popValue_cons, popInteger_cons]
                    exact ih _ _ rets fr hok (.bool hcorr3)
                  | @bool _ _ _ b2 hcorr3 =>
                    cases Ty.bool_beq_rev hby
                    simp [Ty.beq] at hbx
                | @bool _ _ _ b1 hcorr2 =>
                  cases hcorr2 with
                  | @int _ _ _ m hcorr3 =>
                    cases Ty.integer_beq_rev hby
                    simp [Ty.beq] at hbx
                  | @bool _ _ _ b2 hcorr3 =>
                    simp only [run_loop, hop, popValue_cons, popBool_cons]
                    exact ih _ _ rets fr hok (.bool hcorr3)
            · exact CheckRes.noConfusion hok
        | NotEqual location =>
          simp only [type_check_loop, hop] at hok
          split at hok
          · exact CheckRes.noConfusion hok
          · split at hok
            · rename_i typ hstack2
              split at hok
              · exact CheckRes.noConfusion hok
              · rename_i s heq
                obtain ⟨⟨xt, xl⟩, ⟨yt, yl⟩, t, hstack, hby, hbx, hst⟩ := expect_types_two heq
                subst hst
                rw [hstack] at hcorr
                cases hcorr with
                | @int _ _ _ n hcorr2 =>
                  cases hcorr2 with
                  | @int _ _ _ m hcorr3 =>
                    simp only [run_loop, hop, popValue_cons, popInteger_cons]
                    exact ih _ _ rets fr hok (.bool hcorr3)
                  | @bool _ _ _ b2 hcorr3 =>
                    cases Ty.bool_beq_rev hby
                    simp [Ty.beq] at hbx
                | @bool _ _ _ b1 hcorr2 =>
                  cases hcorr2 with
                  | @int _ _ _ m hcorr3 =>
                    cases Ty.integer_beq_rev hby
                    simp [Ty.beq] at hbx
                  | @bool _ _ _ b2 hcorr3 =>
                    simp only [run_loop, hop, popValue_cons, popBool_cons]
                    exact ih _ _ rets fr hok (.bool hcorr3)
            · exact CheckRes.noConfusion hok
        | Not location =>
          simp only [type_check_loop, hop] at hok
          split at hok
          · exact CheckRes.noConfusion hok
          · rename_i s heq
            obtain ⟨⟨xt, xl⟩, t, hstack, hbx, hst⟩ := expect_types_one heq
            cases Ty.beq_bool hbx
            subst hst
            rw [hstack] at hcorr
            cases hcorr with
            | @bool _ _ _ b hcorr2 =>
              simp only [run_loop, hop, popBool_cons]
              exact ih _ _ rets fr hok (.bool hcorr2)
        | Dup location =>
          simp only [type_check_loop, hop] at hok
          split at hok
          · exact CheckRes.noConfusion hok
          · split at hok
            · rename_i typ hstack2
              rw [hstack2] at hok hcorr
              cases hcorr with
              | @int _ _ _ n hcorr2 =>
                simp only [run_loop, hop]
                exact ih _ _ rets fr hok (.int (.int hcorr2))
              | @bool _ _ _ b hcorr2 =>
                simp only [run_loop, hop]
                exact ih _ _ rets fr hok (.bool (.bool hcorr2))
            · exact CheckRes.noConfusion hok
        | Drop location =>
          simp only [type_check_loop, hop] at hok
          split at hok
          · exact CheckRes.noConfusion hok
          · split at hok
            · rename_i hstack2
              rw [hstack2] at hcorr
              cases hcorr with
              | @int _ _ _ n hcorr2 =>
                simp only [run_loop, hop, popValue_cons]
                exact ih _ _ rets fr hok hcorr2
              | @bool _ _ _ b hcorr2 =>
                simp only [run_loop, hop, popValue_cons]
                exact ih _ _ rets fr hok hcorr2
            · exact CheckRes.noConfusion hok
        | Print location =>
          simp only [type_check_loop, hop] at hok
          split at hok
          · exact CheckRes.noConfusion hok
          · split at hok
            · rename_i typ hstack2
              split at hok
              · exact CheckRes.noConfusion hok
              · rename_i s heq
                obtain ⟨⟨xt, xl⟩, t, hstack, hbx, hst⟩ := expect_types_one heq
                subst hst
                rw [hstack] at hcorr
                cases hcorr with
                | @int _ _ _ n hcorr2 =>
                  simp only [run_loop, hop, popValue_cons]
                  exact ih _ _ rets fr hok hcorr2
                | @bool _ _ _ b hcorr2 =>
                  simp only [run_loop, hop, popValue_cons]
                  exact ih _ _ rets fr hok hcorr2
            · exact CheckRes.noConfusion hok
        | Jump location position =>
          simp only [type_check_loop, hop] at hok
          simp only [run_loop, hop]
          exact ih _ vals rets fr hok hcorr
        | PushFunctionPointer location value => simp [Op.isBasic] at hbasic
        | PushType location value => simp [Op.isBasic] at hbasic
        | Swap location => simp [Op.isBasic] at hbasic
        | ConditonalJump location position => simp [Op.isBasic] at hbasic
        | SkipProc location position parameters return_types => simp [Op.isBasic] at hbasic
        | Call location => simp [Op.isBasic] at hbasic
        | Return location => simp [Op.isBasic] at hbasic

/-- Claim C1, counterexample.  `unsound_ops` is accepted by
`type_check_ops`, yet `run_ops` pops a value of the wrong tag inside an
arithmetic op (`AddInteger` receives the `Bool` produced by the previous
iteration), refuting "if `type_check_ops(ops)` returns Ok, then
`run_ops(ops)` never ... pops a value of the wrong tag inside any
arithmetic ... op". -/
theorem check_ok_but_run_tag_mismatch :
    type_check_ops unsound_ops 100 = .ok ∧ run_ops unsound_ops 100 = .tagMismatch :=
  ⟨rfl, rfl⟩

/-- Claim C1, amended.  For every op list built only from the basic ops
(`Exit`, `PushInteger`, the arithmetic, relational and equality ops, `Not`,
`Dup`, `Drop`, `Print` and unconditional `Jump` — no conditional jumps and
no procedure ops), if `type_check_ops` returns Ok then `run_ops` never
encounters an operand-stack underflow, never pops a value of the wrong tag
inside any arithmetic, relational, equality or boolean op, and never
otherwise crashes (division by zero remains a permitted runtime trap, as in
spec §7; the original unrestricted claim is refuted by
the counterexample theorem above, whose conditional-jump loop changes a stack
slot's type between iterations the checker never simulates together). -/
theorem type_check_sound_on_basic_ops (ops : List Op) (fc : Nat)
    (hall : ops.all Op.isBasic = true) (hok : type_check_ops ops fc = .ok) :
    ∀ fr, run_ops ops fr ≠ .underflow ∧ run_ops ops fr ≠ .tagMismatch ∧
      run_ops ops fr ≠ .crash := by
  intro fr
  have h := check_basic_lockstep ops hall fc ⟨0, [], [], none⟩ [] [] fr hok StackCorr.nil
  have h' : run_loop ops fr 0 [] [] = .halted ∨ run_loop ops fr 0 [] [] = .outOfFuel ∨
      run_loop ops fr 0 [] [] = .divByZero := h
  refine ⟨?_, ?_, ?_⟩ <;> intro hbad <;> rw [run_ops] at hbad <;>
    rcases h' with h'' | h'' | h'' <;> rw [h''] at hbad <;> exact RunRes.noConfusion hbad

/-- The op list of `1 2 + print`, terminated with `Exit`. -/
def sample_basic_ops : List Op :=
  [.PushInteger (sample_loc 0) 1, .PushInteger (sample_loc 1) 2,
   .AddInteger (sample_loc 2), .Print (sample_loc 3), .Exit (sample_loc 4)]

/-- Witness for `type_check_sound_on_basic_ops` at the program
`1 2 + print`. -/
theorem type_check_sound_on_basic_ops_witness :
    sample_basic_ops.all Op.isBasic = true ∧
      type_check_ops sample_basic_ops 10 = .ok ∧
      (run_ops sample_basic_ops 10 ≠ .underflow ∧
        run_ops sample_basic_ops 10 ≠ .tagMismatch ∧
        run_ops sample_basic_ops 10 ≠ .crash) :=
  ⟨rfl, rfl, type_check_sound_on_basic_ops sample_basic_ops 10 rfl rfl 10⟩

/-! ### Claim C3 -/

/-- Claim C3, counterexample.  In `order_probe_ops` both sides of the
conditional jump at position 3 fail the checker: the fallthrough side at
position 4 and the jump side at position 6.  The reported error is the one
at position 4 — the fallthrough sibling is explored first — whereas the
claim ("the jump side is explored to completion before the deferred
fallthrough sibling") would make it the one at position 6. -/
theorem fallthrough_explored_first_counterexample :
    (type_check_ops order_probe_ops 100).error_location = some (sample_loc 4) ∧
      sample_loc 4 ≠ sample_loc 6 :=
  ⟨rfl, by decide⟩

/-- `expect_types` on a stack whose top is a `Bool`, against `[Bool]`:
succeeds and pops it (the `ConditonalJump` precondition). -/
theorem expect_types_bool_cons (s : List (Ty × SourceLocation)) (l loc : SourceLocation) :
    expect_types ((Ty.bool, l) :: s) loc [Ty.bool] = .ok s :=
  rfl

/-! ### Claim C2 -/

/-- Claim C2.  The `ConditonalJump` arm of the type checker, after popping
one `Bool` from the symbolic stack, consults the current context's branch
table for the current position:
(a) not present (first visit): a sibling context is cloned that continues at
`ip + 1` with the branch marked `Fallthrough` in its table and is pushed
onto the work-stack, while the current context marks the branch `Jump` and
continues at the jump target;
(b) present as `Jump`: the context takes the fallthrough side (`ip + 1`) and
the entry is overwritten with `Both`;
(c) present as `Fallthrough`: the context takes the jump side and the entry
is overwritten with `Both`;
(d) present as `Both`: the check fails with the internal-compiler-error
diagnostic. -/
theorem conditional_jump_branch_table_step (ops : List Op) (fuel : Nat) (c : Context)
    (rest : List Context) (location : SourceLocation) (position : Nat)
    (l : SourceLocation) (s : List (Ty × SourceLocation))
    (hop : ops.get? c.ip = some (.ConditonalJump location position))
    (hstack : c.stack = (Ty.bool, l) :: s) :
    (jt_position c.condtional_jump_list c.ip = none →
      type_check_loop ops (fuel + 1) (c :: rest) =
        type_check_loop ops fuel
          (⟨c.ip + 1, s, c.condtional_jump_list ++ [(c.ip, .fallthrough)], c.procedure_info⟩ ::
            ⟨position, s, c.condtional_jump_list ++ [(c.ip, .jump)], c.procedure_info⟩ ::
            rest)) ∧
    (∀ i q, jt_position c.condtional_jump_list c.ip = some i →
      c.condtional_jump_list.get? i = some (q, .jump) →
      type_check_loop ops (fuel + 1) (c :: rest) =
        type_check_loop ops fuel
          (⟨c.ip + 1, s, c.condtional_jump_list.set i (q, .both), c.procedure_info⟩ :: rest)) ∧
    (∀ i q, jt_position c.condtional_jump_list c.ip = some i →
      c.condtional_jump_list.get? i = some (q, .fallthrough) →
      type_check_loop ops (fuel + 1) (c :: rest) =
        type_check_loop ops fuel
          (⟨position, s, c.condtional_jump_list.set i (q, .both), c.procedure_info⟩ :: rest)) ∧
    (∀ i q, jt_position c.condtional_jump_list c.ip = some i →
      c.condtional_jump_list.get? i = some (q, .both) →
      type_check_loop ops (fuel + 1) (c :: rest) =
        .error { location := location, message := ice_message }) := by
  refine ⟨fun hnone => ?_, fun i q hfind hget => ?_, fun i q hfind hget => ?_,
    fun i q hfind hget => ?_⟩
  · simp only [type_check_loop, hop, hstack, expect_types_bool_cons]
    simp only [hnone]
  · simp only [type_check_loop, hop, hstack, expect_types_bool_cons]
    simp only [hfind, hget]
  · simp only [type_check_loop, hop, hstack, expect_types_bool_cons]
    simp only [hfind, hget]
  · simp only [type_check_loop, hop, hstack, expect_types_bool_cons]
    simp only [hfind, hget]

/-- Witness for `conditional_jump_branch_table_step`: the four branch-table
cases at a concrete conditional jump. -/
theorem conditional_jump_branch_table_step_witness :
    (type_check_loop [Op.ConditonalJump (sample_loc 0) 5] 4
        [⟨0, [(Ty.bool, sample_loc 9)], [], none⟩] =
      type_check_loop [Op.ConditonalJump (sample_loc 0) 5] 3
        [⟨1, [], [(0, .fallthrough)], none⟩, ⟨5, [], [(0, .jump)], none⟩]) ∧
    (type_check_loop [Op.ConditonalJump (sample_loc 0) 5] 4
        [⟨0, [(Ty.bool, sample_loc 9)], [(0, .jump)], none⟩] =
      type_check_loop [Op.ConditonalJump (sample_loc 0) 5] 3
        [⟨1, [], [(0, .both)], none⟩]) ∧
    (type_check_loop [Op.ConditonalJump (sample_loc 0) 5] 4
        [⟨0, [(Ty.bool, sample_loc 9)], [(0, .fallthrough)], none⟩] =
      type_check_loop [Op.ConditonalJump (sample_loc 0) 5] 3
        [⟨5, [], [(0, .both)], none⟩]) ∧
    (type_check_loop [Op.ConditonalJump (sample_loc 0) 5] 4
        [⟨0, [(Ty.bool, sample_loc 9)], [(0, .both)], none⟩] =
      .error { location := sample_loc 0, message := ice_message }) := by
  refine ⟨?_, ?_, ?_, ?_⟩
  · exact (conditional_jump_branch_table_step [Op.ConditonalJump (sample_loc 0) 5] 3
      ⟨0, [(Ty.bool, sample_loc 9)], [], none⟩ [] (sample_loc 0) 5 (sample_loc 9) []
      rfl rfl).1 rfl
  · exact (conditional_jump_branch_table_step [Op.ConditonalJump (sample_loc 0) 5] 3
      ⟨0, [(Ty.bool, sample_loc 9)], [(0, .jump)], none⟩ [] (sample_loc 0) 5 (sample_loc 9) []
      rfl rfl).2.1 0 0 rfl rfl
  · exact (conditional_jump_branch_table_step [Op.ConditonalJump (sample_loc 0) 5] 3
      ⟨0, [(Ty.bool, sample_loc 9)], [(0, .fallthrough)], none⟩ [] (sample_loc 0) 5
      (sample_loc 9) [] rfl rfl).2.2.1 0 0 rfl rfl
  · exact (conditional_jump_branch_table_step [Op.ConditonalJump (sample_loc 0) 5] 3
      ⟨0, [(Ty.bool, sample_loc 9)], [(0, .both)], none⟩ [] (sample_loc 0) 5
      (sample_loc 9) [] rfl rfl).2.2.2 0 0 rfl rfl

/-! ### Claim C3 (amended) -/

/-- Claim C3, amended.  On the first visit of a conditional jump the current
context is repositioned to the jump target, and only then is the fallthrough
sibling pushed onto the work-stack — so under last-in-first-out processing
the sibling (continuing at `ip + 1`) sits on top and is explored to
completion first, while the jump-side continuation is the deferred one: the
head of the resulting work-stack is the fallthrough sibling and the
jump-side context lies beneath it. -/
theorem fallthrough_sibling_processed_next (ops : List Op) (fuel : Nat) (c : Context)
    (rest : List Context) (location : SourceLocation) (position : Nat)
    (l : SourceLocation) (s : List (Ty × SourceLocation))
    (hop : ops.get? c.ip = some (.ConditonalJump location position))
    (hstack : c.stack = (Ty.bool, l) :: s)
    (hnone : jt_position c.condtional_jump_list c.ip = none) :
    type_check_loop ops (fuel + 1) (c :: rest) =
      type_check_loop ops fuel
        (⟨c.ip + 1, s, c.condtional_jump_list ++ [(c.ip, .fallthrough)], c.procedure_info⟩ ::
          ⟨position, s, c.condtional_jump_list ++ [(c.ip, .jump)], c.procedure_info⟩ ::
          rest) := by
  simp only [type_check_loop, hop, hstack, expect_types_bool_cons]
  simp only [hnone]

/-- Witness for `fallthrough_sibling_processed_next`: the fork at a concrete
conditional jump leaves the fallthrough sibling (continuing at position 1)
on top of the work-stack. -/
theorem fallthrough_sibling_processed_next_witness :
    type_check_loop [Op.ConditonalJump (sample_loc 0) 5] 4
        [⟨0, [(Ty.bool, sample_loc 9)], [], none⟩] =
      type_check_loop [Op.ConditonalJump (sample_loc 0) 5] 3
        [⟨1, [], [(0, .fallthrough)], none⟩, ⟨5, [], [(0, .jump)], none⟩] :=
  fallthrough_sibling_processed_next [Op.ConditonalJump (sample_loc 0) 5] 3
    ⟨0, [(Ty.bool, sample_loc 9)], [], none⟩ [] (sample_loc 0) 5 (sample_loc 9) []
    rfl rfl rfl

/-! ### Claim C4 -/

/-- The back-patch positions recorded by an open block. -/
def BlockType.positions : BlockType → List Nat
  | .If position => [position]
  | .Else skip_position => [skip_position]
  | .While position => [position]
  | .WhileBody begin_position end_jump_position => [begin_position, end_jump_position]
  | .Proc jump_past_position => [jump_past_position]

/-- Every jump-like target in `ops` is at most `n`. -/
def targets_le (ops : List Op) (n : Nat) : Prop :=
  ∀ op ∈ ops, ∀ t ∈ op.targets, t ≤ n

/-- Every position recorded by an open block is at most `n`. -/
def blocks_le (blocks : List BlockType) (n : Nat) : Prop :=
  ∀ b ∈ blocks, ∀ p ∈ b.positions, p ≤ n

theorem targets_le_mono {ops : List Op} {n m : Nat} (h : targets_le ops n) (hnm : n ≤ m) :
    targets_le ops m :=
  fun op hop t ht => le_trans (h op hop t ht) hnm

theorem blocks_le_mono {blocks : List BlockType} {n m : Nat} (h : blocks_le blocks n)
    (hnm : n ≤ m) : blocks_le blocks m :=
  fun b hb p hp => le_trans (h b hb p hp) hnm

/-- Appending one op whose targets are bounded by the new length preserves
the bound. -/
theorem targets_le_snoc {ops : List Op} {op : Op} (h : targets_le ops ops.length)
    (hop : ∀ t ∈ op.targets, t ≤ ops.length + 1) :
    targets_le (ops ++ [op]) (ops ++ [op]).length := by
  have hlen : (ops ++ [op]).length = ops.length + 1 := by simp
  rw [hlen]
  intro op' hop' t ht
  rcases List.mem_append.mp hop' with h1 | h1
  · exact le_trans (h op' h1 t ht) (Nat.le_succ _)
  · cases List.mem_singleton.mp h1
    exact hop t ht

/-- Overwriting one op with an op whose targets are bounded preserves the
bound. -/
theorem targets_le_set {ops : List Op} {n i : Nat} {op : Op} (h : targets_le ops n)
    (hop : ∀ t ∈ op.targets, t ≤ n) : targets_le (ops.set i op) n := by
  intro op' hop' t ht
  rcases List.mem_or_eq_of_mem_set hop' with h1 | h1
  · exact h op' h1 t ht
  · cases h1
    exact hop t ht

/-- A successful `patch_condtional_jump` to a bounded target preserves the
bound and the length. -/
theorem patch_condtional_jump_le {ops : List Op} {i t : Nat} {ops' : List Op} {n : Nat}
    (hp : patch_condtional_jump ops i t = some ops') (h : targets_le ops n) (ht : t ≤ n) :
    targets_le ops' n ∧ ops'.length = ops.length := by
  unfold patch_condtional_jump at hp
  split at hp
  · cases hp
    refine ⟨targets_le_set h ?_, List.length_set ops _ _⟩
    intro t' ht'
    cases List.mem_singleton.mp ht'
    exact ht
  · exact Option.noConfusion hp

/-- A successful `patch_jump` to a bounded target preserves the bound and
the length. -/
theorem patch_jump_le {ops : List Op} {i t : Nat} {ops' : List Op} {n : Nat}
    (hp : patch_jump ops i t = some ops') (h : targets_le ops n) (ht : t ≤ n) :
    targets_le ops' n ∧ ops'.length = ops.length := by
  unfold patch_jump at hp
  split at hp
  · cases hp
    refine ⟨targets_le_set h ?_, List.length_set ops _ _⟩
    intro t' ht'
    cases List.mem_singleton.mp ht'
    exact ht
  · exact Option.noConfusion hp

/-- A successful `patch_skip_proc` to a bounded target preserves the bound
and the length. -/
theorem patch_skip_proc_le {ops : List Op} {i t : Nat} {ops' : List Op} {n : Nat}
    (hp : patch_skip_proc ops i t = some ops') (h : targets_le ops n) (ht : t ≤ n) :
    targets_le ops' n ∧ ops'.length = ops.length := by
  unfold patch_skip_proc at hp
  split at hp
  · cases hp
    refine ⟨targets_le_set h ?_, List.length_set ops _ _⟩
    intro t' ht'
    cases List.mem_singleton.mp ht'
    exact ht
  · exact Option.noConfusion hp

/-- Pushing a block whose recorded positions are bounded preserves the
bound. -/
theorem blocks_le_cons {b : BlockType} {blocks : List BlockType} {n : Nat}
    (hb : ∀ p ∈ b.positions, p ≤ n) (h : blocks_le blocks n) :
    blocks_le (b :: blocks) n := by
  intro b' hb' p hp
  rcases List.mem_cons.mp hb' with h1 | h1
  · subst h1
    exact hb p hp
  · exact h b' h1 p hp

/-- The tail of a bounded block stack is bounded. -/
theorem blocks_le_tail {b : BlockType} {blocks : List BlockType} {n : Nat}
    (h : blocks_le (b :: blocks) n) : blocks_le blocks n :=
  fun b' hb' => h b' (List.mem_cons_of_mem _ hb')

/-- An op list grows by one on append. -/
theorem length_append_one (ops : List Op) (op : Op) :
    (ops ++ [op]).length = ops.length + 1 := by
  simp

/-- Appending an op with no targets preserves the bound. -/
theorem targets_le_snoc_empty {ops : List Op} {op : Op} (h : targets_le ops ops.length)
    (hop : op.targets = []) : targets_le (ops ++ [op]) (ops ++ [op]).length :=
  targets_le_snoc h (by rw [hop]; intro t ht; cases ht)

/-- Appending an op whose single target is bounded by the old length
preserves the bound. -/
theorem targets_le_snoc_one {ops : List Op} {op : Op} {t0 : Nat}
    (h : targets_le ops ops.length) (hop : op.targets = [t0]) (ht : t0 ≤ ops.length) :
    targets_le (ops ++ [op]) (ops ++ [op]).length :=
  targets_le_snoc h (by
    rw [hop]
    intro t ht'
    cases List.mem_singleton.mp ht'
    exact le_trans ht (Nat.le_succ _))

/-- The bounds invariant of `compile_loop` (used by the amended claim C4):
starting from an op list whose jump-like targets are bounded by its length
and a block stack whose recorded positions are bounded by it, a successful
run of the loop produces an op list whose jump-like targets are bounded by
the final length.  Every emission appends targets that are `0` or an
already-recorded position, and every back-patch writes the op-list length at
patch time, so the bound is preserved throughout; the nested signature
compilations of the `Proc` arm work on their own fresh op lists and never
touch the outer one. -/
theorem compile_loop_bounds {σ : Type} (tk : Tokenizer σ) :
    ∀ fuel (s : σ) (ops : List Op) (blocks : List BlockType)
      (scopes : List (List (String × Nat))) (ops' : List Op) (blocks' : List BlockType),
      compile_loop fuel tk s ops blocks scopes = .ok ops' blocks' →
      targets_le ops ops.length → blocks_le blocks ops.length →
      targets_le ops' ops'.length := by
  intro fuel
  induction fuel with
  | zero =>
    intro s ops blocks scopes ops' blocks' hcomp _ _
    simp only [compile_loop] at hcomp
    exact CompileRes.noConfusion hcomp
  | succ fuel ih =>
    intro s ops blocks scopes ops' blocks' hcomp hops hblocks
    rcases htk : tk.next_token s with ⟨token, s₁⟩
    simp only [compile_loop, htk] at hcomp
    cases hkind : token.kind <;> simp only [hkind] at hcomp
    case endOfFile =>
      cases hcomp
      exact hops
    case integer =>
      split at hcomp
      · exact ih _ _ _ _ _ _ hcomp (targets_le_snoc_empty hops rfl)
          (blocks_le_mono hblocks (by simp))
      · exact CompileRes.noConfusion hcomp
    case name =>
      split at hcomp
      · split at hcomp
        · exact ih _ _ _ _ _ _ hcomp (targets_le_snoc_empty hops rfl)
            (blocks_le_mono hblocks (by simp))
        · split at hcomp
          · exact ih _ _ _ _ _ _ hcomp (targets_le_snoc_empty hops rfl)
              (blocks_le_mono hblocks (by simp))
          · split at hcomp
            · exact ih _ _ _ _ _ _ hcomp (targets_le_snoc_empty hops rfl)
                (blocks_le_mono hblocks (by simp))
            · split at hcomp
              · split at hcomp
                · exact ih _ _ _ _ _ _ hcomp (targets_le_snoc_empty hops rfl)
                    (blocks_le_mono hblocks (by simp))
                · exact CompileRes.noConfusion hcomp
              · exact CompileRes.noConfusion hcomp
      · exact CompileRes.noConfusion hcomp
    case print =>
      exact ih _ _ _ _ _ _ hcomp (targets_le_snoc_empty hops rfl)
        (blocks_le_mono hblocks (by simp))
    case «if» =>
      split at hcomp
      · exact CompileRes.noConfusion hcomp
      · refine ih _ _ _ _ _ _ hcomp ?_ ?_
        · exact targets_le_snoc_one (targets_le_snoc_empty hops rfl) rfl (Nat.zero_le _)
        · refine blocks_le_cons ?_ (blocks_le_mono hblocks (by simp))
          intro p hp
          cases List.mem_singleton.mp hp
          simp [length_append_one]
    case «while» =>
      refine ih _ _ _ _ _ _ hcomp hops (blocks_le_cons ?_ hblocks)
      intro p hp
      cases List.mem_singleton.mp hp
      exact Nat.le_refl _
    case call =>
      exact ih _ _ _ _ _ _ hcomp (targets_le_snoc_empty hops rfl)
        (blocks_le_mono hblocks (by simp))
    case openBrace =>
      split at hcomp
      · rename_i position rest_blocks
        have hb : position ≤ ops.length :=
          hblocks _ (List.mem_cons_self _ _) position (by simp [BlockType.positions])
        refine ih _ _ _ _ _ _ hcomp ?_ ?_
        · exact targets_le_snoc_one (targets_le_snoc_empty hops rfl) rfl (Nat.zero_le _)
        · refine blocks_le_cons ?_
            (blocks_le_mono (blocks_le_tail hblocks) (by simp only [length_append_one]; omega))
          intro p hp
          simp only [BlockType.positions, List.mem_cons, List.mem_singleton] at hp
          rcases hp with hp | hp | hp
          · subst hp
            simp only [length_append_one]
            omega
          · subst hp
            simp only [length_append_one]
            omega
          · cases hp
      · exact CompileRes.noConfusion hcomp
    case dup =>
      exact ih _ _ _ _ _ _ hcomp (targets_le_snoc_empty hops rfl)
        (blocks_le_mono hblocks (by simp))
    case drop =>
      exact ih _ _ _ _ _ _ hcomp (targets_le_snoc_empty hops rfl)
        (blocks_le_mono hblocks (by simp))
    case swap =>
      exact ih _ _ _ _ _ _ hcomp (targets_le_snoc_empty hops rfl)
        (blocks_le_mono hblocks (by simp))
    case proc =>
      split at hcomp
      · exact CompileRes.noConfusion hcomp
      · split at hcomp
        · exact CompileRes.noConfusion hcomp
        · split at hcomp
          · exact CompileRes.noConfusion hcomp
          · split at hcomp
            · exact CompileRes.noConfusion hcomp
            · split at hcomp
              · exact CompileRes.noConfusion hcomp
              · exact CompileRes.noConfusion hcomp
              · exact CompileRes.noConfusion hcomp
              · split at hcomp
                · exact CompileRes.noConfusion hcomp
                · exact CompileRes.noConfusion hcomp
                · split at hcomp
                  · exact CompileRes.noConfusion hcomp
                  · split at hcomp
                    · exact CompileRes.noConfusion hcomp
                    · exact CompileRes.noConfusion hcomp
                    · exact CompileRes.noConfusion hcomp
                    · split at hcomp
                      · split at hcomp
                        · exact CompileRes.noConfusion hcomp
                        · split at hcomp
                          · exact CompileRes.noConfusion hcomp
                          · split at hcomp
                            · exact ih _ _ _ _ _ _ hcomp
                                (targets_le_snoc_one hops rfl (Nat.zero_le _))
                                (blocks_le_cons
                                  (by
                                    intro p hp
                                    cases List.mem_singleton.mp hp
                                    simp only [length_append_one]
                                    omega)
                                  (blocks_le_mono hblocks (by simp)))
                            · exact CompileRes.noConfusion hcomp
                      · exact ih _ _ _ _ _ _ hcomp
                          (targets_le_snoc_empty hops rfl)
                          (blocks_le_mono hblocks (by simp))
    case closeBrace =>
      split at hcomp
      · exact CompileRes.noConfusion hcomp
      · rename_i block_type rest_blocks
        split at hcomp
        · exact CompileRes.noConfusion hcomp
        · split at hcomp
          · rename_i position
            split at hcomp
            · rcases htk2 : tk.next_token s₁ with ⟨else_token, s₂⟩
              simp only [htk2] at hcomp
              split at hcomp
              · exact CompileRes.noConfusion hcomp
              · split at hcomp
                · exact CompileRes.noConfusion hcomp
                · rename_i ops₂ hpatch
                  obtain ⟨hT, hL⟩ := patch_condtional_jump_le hpatch
                    (targets_le_snoc_one hops rfl (Nat.zero_le _)) (Nat.le_refl _)
                  refine ih _ _ _ _ _ _ hcomp ?_ ?_
                  · rw [hL]
                    exact hT
                  · rw [hL]
                    refine blocks_le_cons ?_ (blocks_le_mono (blocks_le_tail hblocks)
                      (by simp only [length_append_one]; omega))
                    intro p hp
                    cases List.mem_singleton.mp hp
                    simp only [length_append_one]
                    omega
            · split at hcomp
              · exact CompileRes.noConfusion hcomp
              · rename_i ops₂ hpatch
                obtain ⟨hT, hL⟩ := patch_condtional_jump_le hpatch hops (Nat.le_refl _)
                refine ih _ _ _ _ _ _ hcomp ?_ ?_
                · rw [hL]
                  exact hT
                · rw [hL]
                  exact blocks_le_tail hblocks
          · rename_i skip_position
            split at hcomp
            · exact CompileRes.noConfusion hcomp
            · rename_i ops₂ hpatch
              obtain ⟨hT, hL⟩ := patch_jump_le hpatch hops (Nat.le_refl _)
              refine ih _ _ _ _ _ _ hcomp ?_ ?_
              · rw [hL]
                exact hT
              · rw [hL]
                exact blocks_le_tail hblocks
          · exact CompileRes.noConfusion hcomp
          · rename_i begin_position end_jump_position
            have hb : begin_position ≤ ops.length :=
              hblocks _ (List.mem_cons_self _ _) _ (by simp [BlockType.positions])
            split at hcomp
            · exact CompileRes.noConfusion hcomp
            · rename_i ops₂ hpatch
              obtain ⟨hT, hL⟩ := patch_condtional_jump_le hpatch
                (targets_le_snoc_one hops rfl hb) (Nat.le_refl _)
              refine ih _ _ _ _ _ _ hcomp ?_ ?_
              · rw [hL]
                exact hT
              · rw [hL]
                exact blocks_le_mono (blocks_le_tail hblocks)
                  (by simp only [length_append_one]; omega)
          · rename_i jump_past_position
            split at hcomp
            · exact CompileRes.noConfusion hcomp
            · rename_i ops₂ hpatch
              obtain ⟨hT, hL⟩ := patch_skip_proc_le hpatch
                (targets_le_snoc_empty hops rfl) (Nat.le_refl _)
              refine ih _ _ _ _ _ _ hcomp ?_ ?_
              · rw [hL]
                exact hT
              · rw [hL]
                exact blocks_le_mono (blocks_le_tail hblocks)
                  (by simp only [length_append_one]; omega)
    case plus =>
      exact ih _ _ _ _ _ _ hcomp (targets_le_snoc_empty hops rfl)
        (blocks_le_mono hblocks (by simp))
    case minus =>
      exact ih _ _ _ _ _ _ hcomp (targets_le_snoc_empty hops rfl)
        (blocks_le_mono hblocks (by simp))
    case asterisk =>
      exact ih _ _ _ _ _ _ hcomp (targets_le_snoc_empty hops rfl)
        (blocks_le_mono hblocks (by simp))
    case slash =>
      exact ih _ _ _ _ _ _ hcomp (targets_le_snoc_empty hops rfl)
        (blocks_le_mono hblocks (by simp))
    case lessThan =>
      exact ih _ _ _ _ _ _ hcomp (targets_le_snoc_empty hops rfl)
        (blocks_le_mono hblocks (by simp))
    case greaterThan =>
      exact ih _ _ _ _ _ _ hcomp (targets_le_snoc_empty hops rfl)
        (blocks_le_mono hblocks (by simp))
    case lessThanEqual =>
      exact ih _ _ _ _ _ _ hcomp (targets_le_snoc_empty hops rfl)
        (blocks_le_mono hblocks (by simp))
    case greaterThanEqual =>
      exact ih _ _ _ _ _ _ hcomp (targets_le_snoc_empty hops rfl)
        (blocks_le_mono hblocks (by simp))
    case equalEqual =>
      exact ih _ _ _ _ _ _ hcomp (targets_le_snoc_empty hops rfl)
        (blocks_le_mono hblocks (by simp))
    case notEqual =>
      exact ih _ _ _ _ _ _ hcomp (targets_le_snoc_empty hops rfl)
        (blocks_le_mono hblocks (by simp))
    case not =>
      exact ih _ _ _ _ _ _ hcomp (targets_le_snoc_empty hops rfl)
        (blocks_le_mono hblocks (by simp))
    case «else» => exact CompileRes.noConfusion hcomp
    case equal => exact CompileRes.noConfusion hcomp
    case memory => exact CompileRes.noConfusion hcomp
    case openParenthesis => exact CompileRes.noConfusion hcomp
    case closeParenthesis => exact CompileRes.noConfusion hcomp
    case rightArrow => exact CompileRes.noConfusion hcomp

/-- Claim C4, amended.  For every program that `compile_ops` compiles
successfully, every `Jump`, `ConditionalJump` and `SkipProc` op in the final
(`Exit`-terminated) op list carries a target position that is a valid index
into that list.  The claim's second conjunct — that no such op still carries
its emission-time placeholder 0 unpatched — does not hold: `compile_ops`
accepts end-of-file with blocks still open and then leaves their
placeholders unpatched (see the counterexample theorem above); the
placeholder 0 is itself in bounds, so only the bounds half survives. -/
theorem compiled_jump_targets_in_bounds (tokens : List Token) (fuel : Nat)
    (ops : List Op) (blocks : List BlockType)
    (h : compile_program tokens fuel = .ok ops blocks) :
    ∀ op ∈ ops, ∀ t ∈ op.targets, t < ops.length := by
  unfold compile_program compile_ops at h
  cases hc : compile_loop fuel streamTokenizer tokens [] [] [[]] with
  | ok o b =>
    rw [hc] at h
    have h' : CompileRes.ok (o ++ [Op.Exit stream_eof_token.location]) b =
        CompileRes.ok ops blocks := h
    cases h'
    have hT := compile_loop_bounds streamTokenizer fuel tokens [] [] [[]] o blocks hc
      (by intro op hop t ht; cases hop) (by intro b' hb' p hp; cases hb')
    intro op hop t ht
    rcases List.mem_append.mp hop with h1 | h1
    · have := hT op h1 t ht
      simp only [length_append_one]
      omega
    · cases List.mem_singleton.mp h1
      simp [Op.targets] at ht
  | error e =>
    rw [hc] at h
    have h' : CompileRes.error e = CompileRes.ok ops blocks := h
    exact CompileRes.noConfusion h'
  | crash =>
    rw [hc] at h
    have h' : CompileRes.crash = CompileRes.ok ops blocks := h
    exact CompileRes.noConfusion h'
  | outOfFuel =>
    rw [hc] at h
    have h' : CompileRes.outOfFuel = CompileRes.ok ops blocks := h
    exact CompileRes.noConfusion h'

/-- The token stream of `0 while dup 3 < { dup print 1 + } drop`. -/
def sample_while_tokens : List Token :=
  [sample_int_tok 0 0, sample_tok .«while» 1, sample_tok .dup 2, sample_int_tok 3 3,
   sample_tok .lessThan 4, sample_tok .openBrace 5, sample_tok .dup 6, sample_tok .print 7,
   sample_int_tok 1 8, sample_tok .plus 9, sample_tok .closeBrace 10, sample_tok .drop 11]

/-- The compiled, `Exit`-terminated program of `sample_while_tokens`. -/
def sample_while_program : List Op :=
  [.PushInteger (sample_loc 0) 0, .Dup (sample_loc 2), .PushInteger (sample_loc 3) 3,
   .LessThanInteger (sample_loc 4), .Not (sample_loc 5), .ConditonalJump (sample_loc 5) 11,
   .Dup (sample_loc 6), .Print (sample_loc 7), .PushInteger (sample_loc 8) 1,
   .AddInteger (sample_loc 9), .Jump (sample_loc 10) 1, .Drop (sample_loc 11),
   .Exit stream_eof_token.location]

/-- Witness for `compiled_jump_targets_in_bounds` at the compiled `while`
loop `0 while dup 3 < { dup print 1 + } drop`. -/
theorem compiled_jump_targets_in_bounds_witness :
    compile_program sample_while_tokens 60 = .ok sample_while_program [] ∧
      ∀ op ∈ sample_while_program, ∀ t ∈ op.targets, t < sample_while_program.length :=
  ⟨rfl, compiled_jump_targets_in_bounds sample_while_tokens 60 _ _ rfl⟩

/-- Token stream of an `if` whose block is never closed. -/
def unclosed_if_tokens : List Token :=
  [sample_tok .«if» 0, sample_tok .openBrace 1]

/-- Claim C4, counterexample.  `compile_ops` accepts a token stream whose
`if` block is never closed: it returns Ok at end of file with the `If`
block still open, and the `ConditonalJump` emitted for the `if` (index 1)
still carries its emission-time placeholder position 0 — it was never
patched (every patch writes the op-list length at patch time, which is at
least 2 once this op exists).  The same dangling placeholder survives into
the `Exit`-terminated final program, refuting "no such op still carries its
emission-time placeholder value 0 unpatched".  (The placeholder 0 happens to
be in bounds, so the claim's validity conjunct is not what fails here; see
the amended theorem for what does hold.) -/
theorem unclosed_if_leaves_placeholder :
    compile_ops streamTokenizer unclosed_if_tokens [] 50 =
      .ok [.Not (sample_loc 0), .ConditonalJump (sample_loc 0) 0] [.If 1] ∧
    compile_program unclosed_if_tokens 50 =
      .ok [.Not (sample_loc 0), .ConditonalJump (sample_loc 0) 0,
           .Exit stream_eof_token.location] [.If 1] :=
  ⟨rfl, rfl⟩

/-! ### Claim C9 -/

/-- Claim C9, counterexample.  A `}` with no matching open block does not
produce a `SyntaxError` error value: `compile_ops` panics on the
`block_stack.pop().unwrap()` (modelled as `crash`), refuting "compilation
fails by returning a SyntaxError as an error value (it aborts with a
diagnostic, not by crashing)" for this token. -/
theorem close_brace_without_block_crashes :
    compile_ops streamTokenizer [sample_tok .closeBrace 0] [] 50 = .crash :=
  rfl

/-! ### Claim C6 -/

/-- Claim C6.  The three `while`-related steps of `compile_loop`, for any
tokenizer, any state and any already-emitted prefix:
(1) the `while` token records the current op position (the condition start)
in a `While` block and emits nothing;
(2) the following `{` (with that `While` block innermost) emits `Not`
followed by a `ConditionalJump` placeholder with target 0, and opens a
`WhileBody` block recording the condition start and the jump's position
`ops.length + 1` (the index of the emitted `ConditonalJump`);
(3) the matching `}` (with the `WhileBody` block innermost) emits an
unconditional `Jump` back to the recorded condition start and then patches
the recorded `ConditonalJump`'s target to `ops.length + 1`, the position
immediately after that `Jump` — the new end of the op list. -/
theorem while_compilation_steps {σ : Type} (tk : Tokenizer σ) (s s' : σ) (fuel : Nat)
    (ops : List Op) (blocks : List BlockType) (scopes : List (List (String × Nat)))
    (token : Token) (hnext : tk.next_token s = (token, s')) :
    (token.kind = .«while» →
      compile_loop (fuel + 1) tk s ops blocks scopes =
        compile_loop fuel tk s' ops (.While ops.length :: blocks) scopes) ∧
    (token.kind = .openBrace → ∀ position rest_blocks,
      blocks = .While position :: rest_blocks →
      compile_loop (fuel + 1) tk s ops blocks scopes =
        compile_loop fuel tk s'
          (ops ++ [Op.Not token.location, Op.ConditonalJump token.location 0])
          (.WhileBody position (ops.length + 1) :: rest_blocks)
          ([] :: scopes)) ∧
    (token.kind = .closeBrace →
      ∀ begin_position end_jump_position rest_blocks scope rest_scopes cj_loc t,
      blocks = .WhileBody begin_position end_jump_position :: rest_blocks →
      scopes = scope :: rest_scopes →
      ops.get? end_jump_position = some (.ConditonalJump cj_loc t) →
      end_jump_position < ops.length →
      compile_loop (fuel + 1) tk s ops blocks scopes =
        compile_loop fuel tk s'
          ((ops ++ [Op.Jump token.location begin_position]).set end_jump_position
            (Op.ConditonalJump cj_loc (ops.length + 1)))
          rest_blocks rest_scopes) := by
  refine ⟨fun hkind => ?_, fun hkind position rest_blocks hblocks => ?_,
    fun hkind begin_position end_jump_position rest_blocks scope rest_scopes cj_loc t
      hblocks hscopes hcj hlt => ?_⟩
  · simp only [compile_loop, hnext, hkind]
  · subst hblocks
    simp only [compile_loop, hnext, hkind, List.length_append, List.length_cons,
      List.length_nil, List.append_assoc, List.cons_append, List.nil_append]
  · subst hblocks hscopes
    simp only [compile_loop, hnext, hkind]
    rw [patch_condtional_jump, List.get?_append hlt, hcj]
    simp [List.length_append]

/-- Witness for `while_compilation_steps`: each of the three steps applied
to a concrete state (compiling `while dup { drop }`-like fragments). -/
theorem while_compilation_steps_witness :
    (compile_loop 6 streamTokenizer [sample_tok .«while» 0, sample_tok .openBrace 1]
        [] [] [[]] =
      compile_loop 5 streamTokenizer [sample_tok .openBrace 1] [] [.While 0] [[]]) ∧
    (compile_loop 6 streamTokenizer [sample_tok .openBrace 1] [] [.While 0] [[]] =
      compile_loop 5 streamTokenizer []
        [Op.Not (sample_loc 1), Op.ConditonalJump (sample_loc 1) 0]
        [.WhileBody 0 1] [[], []]) ∧
    (compile_loop 6 streamTokenizer [sample_tok .closeBrace 2]
        [Op.Not (sample_loc 1), Op.ConditonalJump (sample_loc 1) 0]
        [.WhileBody 0 1] [[], []] =
      compile_loop 5 streamTokenizer []
        (([Op.Not (sample_loc 1), Op.ConditonalJump (sample_loc 1) 0] ++
            [Op.Jump (sample_loc 2) 0]).set 1 (Op.ConditonalJump (sample_loc 1) 3))
        [] [[]]) := by
  refine ⟨?_, ?_, ?_⟩
  · exact (while_compilation_steps streamTokenizer
      [sample_tok .«while» 0, sample_tok .openBrace 1] [sample_tok .openBrace 1]
      5 [] [] [[]] (sample_tok .«while» 0) rfl).1 rfl
  · exact (while_compilation_steps streamTokenizer [sample_tok .openBrace 1] []
      5 [] [.While 0] [[]] (sample_tok .openBrace 1) rfl).2.1 rfl 0 [] rfl
  · exact (while_compilation_steps streamTokenizer [sample_tok .closeBrace 2] [] 5
      [Op.Not (sample_loc 1), Op.ConditonalJump (sample_loc 1) 0]
      [.WhileBody 0 1] [[], []] (sample_tok .closeBrace 2) rfl).2.2 rfl 0 1 [] [] [[]]
      (sample_loc 1) 0 rfl rfl rfl (by decide)

/-! ### Claim C7 -/

/-- Claim C7.  The `Name` arm of `compile_loop`, for any tokenizer, state and
compilation state: the built-in names `int`, `bool` and `type` compile to a
`PushType` of the corresponding type; any other name found by the
innermost-to-outermost scope search at a position holding a `SkipProc`
compiles to a `PushFunctionPointer` whose value is one past that position
(the body entry); a name found in no scope fails compilation with the
name-resolution error.  The final conjunct pins the innermost-first search
order: a declaration in the innermost scope wins regardless of what the
outer scopes contain. -/
theorem name_resolution_steps {σ : Type} (tk : Tokenizer σ) (s s' : σ) (fuel : Nat)
    (ops : List Op) (blocks : List BlockType) (scopes : List (List (String × Nat)))
    (token : Token) (hnext : tk.next_token s = (token, s')) (hkind : token.kind = .name) :
    (token.data = .string "int" →
      compile_loop (fuel + 1) tk s ops blocks scopes =
        compile_loop fuel tk s' (ops ++ [Op.PushType token.location .integer]) blocks scopes) ∧
    (token.data = .string "bool" →
      compile_loop (fuel + 1) tk s ops blocks scopes =
        compile_loop fuel tk s' (ops ++ [Op.PushType token.location .bool]) blocks scopes) ∧
    (token.data = .string "type" →
      compile_loop (fuel + 1) tk s ops blocks scopes =
        compile_loop fuel tk s' (ops ++ [Op.PushType token.location .type]) blocks scopes) ∧
    (∀ name position l p ps rs, token.data = .string name →
      name ≠ "int" → name ≠ "bool" → name ≠ "type" →
      find_name_in_scopes scopes name = some position →
      ops.get? position = some (.SkipProc l p ps rs) →
      compile_loop (fuel + 1) tk s ops blocks scopes =
        compile_loop fuel tk s'
          (ops ++ [Op.PushFunctionPointer token.location (position + 1)]) blocks scopes) ∧
    (∀ name, token.data = .string name →
      name ≠ "int" → name ≠ "bool" → name ≠ "type" →
      find_name_in_scopes scopes name = none →
      compile_loop (fuel + 1) tk s ops blocks scopes =
        .error { location := token.location,
                 message := "Unable to find name " ++ name }) ∧
    (∀ scope rest name position, find_name_in_scope scope name = some position →
      find_name_in_scopes (scope :: rest) name = some position) := by
  refine ⟨fun hdata => ?_, fun hdata => ?_, fun hdata => ?_,
    fun name position l p ps rs hdata h1 h2 h3 hfind hskip => ?_,
    fun name hdata h1 h2 h3 hfind => ?_,
    fun scope rest name position hfind => ?_⟩
  · simp [compile_loop, hnext, hkind, hdata]
  · simp [compile_loop, hnext, hkind, hdata]
  · simp [compile_loop, hnext, hkind, hdata]
  · simp only [compile_loop, hnext, hkind, hdata, if_neg h1, if_neg h2, if_neg h3,
      hfind, hskip]
  · simp only [compile_loop, hnext, hkind, hdata, if_neg h1, if_neg h2, if_neg h3, hfind]
  · simp only [find_name_in_scopes, hfind]

/-- Witness for `name_resolution_steps`: the six conjuncts applied to
concrete states (the three built-ins, a procedure reference with the
declaration shadowed correctly, and an unresolved name). -/
theorem name_resolution_steps_witness :
    (compile_loop 6 streamTokenizer [sample_name_tok "int" 0] [] [] [[]] =
      compile_loop 5 streamTokenizer [] [Op.PushType (sample_loc 0) .integer] [] [[]]) ∧
    (compile_loop 6 streamTokenizer [sample_name_tok "bool" 0] [] [] [[]] =
      compile_loop 5 streamTokenizer [] [Op.PushType (sample_loc 0) .bool] [] [[]]) ∧
    (compile_loop 6 streamTokenizer [sample_name_tok "type" 0] [] [] [[]] =
      compile_loop 5 streamTokenizer [] [Op.PushType (sample_loc 0) .type] [] [[]]) ∧
    (compile_loop 6 streamTokenizer [sample_name_tok "f" 3]
        [Op.SkipProc (sample_loc 0) 2 [] [], Op.Return (sample_loc 1)]
        [] [[("f", 0)]] =
      compile_loop 5 streamTokenizer []
        ([Op.SkipProc (sample_loc 0) 2 [] [], Op.Return (sample_loc 1)] ++
          [Op.PushFunctionPointer (sample_loc 3) 1])
        [] [[("f", 0)]]) ∧
    (compile_loop 6 streamTokenizer [sample_name_tok "g" 0] [] [] [[]] =
      .error { location := sample_loc 0, message := "Unable to find name " ++ "g" }) ∧
    (find_name_in_scopes [[("f", 7)], [("f", 0)]] "f" = some 7) := by
  refine ⟨?_, ?_, ?_, ?_, ?_, ?_⟩
  · exact (name_resolution_steps streamTokenizer [sample_name_tok "int" 0] [] 5 [] [] [[]]
      (sample_name_tok "int" 0) rfl rfl).1 rfl
  · exact (name_resolution_steps streamTokenizer [sample_name_tok "bool" 0] [] 5 [] [] [[]]
      (sample_name_tok "bool" 0) rfl rfl).2.1 rfl
  · exact (name_resolution_steps streamTokenizer [sample_name_tok "type" 0] [] 5 [] [] [[]]
      (sample_name_tok "type" 0) rfl rfl).2.2.1 rfl
  · exact (name_resolution_steps streamTokenizer [sample_name_tok "f" 3] [] 5
      [Op.SkipProc (sample_loc 0) 2 [] [], Op.Return (sample_loc 1)] [] [[("f", 0)]]
      (sample_name_tok "f" 3) rfl rfl).2.2.2.1 "f" 0 (sample_loc 0) 2 [] [] rfl
      (by decide) (by decide) (by decide) rfl rfl
  · exact (name_resolution_steps streamTokenizer [sample_name_tok "g" 0] [] 5 [] [] [[]]
      (sample_name_tok "g" 0) rfl rfl).2.2.2.2.1 "g"
      rfl (by decide) (by decide) (by decide) rfl
  · exact (name_resolution_steps streamTokenizer [sample_name_tok "x" 0] [] 5 [] [] [[]]
      (sample_name_tok "x" 0) rfl rfl).2.2.2.2.2 [("f", 7)] [[("f", 0)]] "f" 7 rfl

/-- Claim C9, amended.  `compile_loop`'s handling of tokens that are not
valid in the current position: the kinds with no arm of their own
(`Else`, `Equal`, `Memory`, `OpenParenthesis`, `CloseParenthesis`,
`RightArrow`) are rejected with a `SyntaxError` wherever they appear; an
`{` whose innermost block is not a pending `While` is rejected with a
`SyntaxError`; a `}` closing a `While` block whose `{` was never seen is
rejected with a `SyntaxError`; but a `}` with no open block at all does not
return an error value — it crashes (the `block_stack.pop().unwrap()`
panic). -/
theorem unexpected_token_syntax_error {σ : Type} (tk : Tokenizer σ) (s s' : σ) (fuel : Nat)
    (ops : List Op) (blocks : List BlockType) (scopes : List (List (String × Nat)))
    (token : Token) (hnext : tk.next_token s = (token, s')) :
    (token.kind.is_unhandled = true →
      compile_loop (fuel + 1) tk s ops blocks scopes =
        .error { location := token.location, message := unexpected_token_message token.kind }) ∧
    (token.kind = .openBrace → (∀ p rest_blocks, blocks ≠ .While p :: rest_blocks) →
      compile_loop (fuel + 1) tk s ops blocks scopes =
        .error { location := token.location, message := unexpected_token_message token.kind }) ∧
    (token.kind = .closeBrace → ∀ p rest_blocks scope rest_scopes,
      blocks = .While p :: rest_blocks → scopes = scope :: rest_scopes →
      compile_loop (fuel + 1) tk s ops blocks scopes =
        .error { location := token.location, message := unexpected_token_message token.kind }) ∧
    (token.kind = .closeBrace → blocks = [] →
      compile_loop (fuel + 1) tk s ops blocks scopes = .crash) := by
  refine ⟨fun hu => ?_, fun hkind hnw => ?_,
    fun hkind p rest_blocks scope rest_scopes hblocks hscopes => ?_,
    fun hkind hblocks => ?_⟩
  · cases hk : token.kind <;> rw [hk] at hu <;>
      first
        | exact Bool.noConfusion hu
        | simp only [compile_loop, hnext, hk]
  · cases hblocks : blocks with
    | nil => simp only [compile_loop, hnext, hkind]
    | cons b rest_blocks =>
      cases b with
      | While p => exact absurd hblocks (hnw p rest_blocks)
      | If p => simp only [compile_loop, hnext, hkind]
      | Else p => simp only [compile_loop, hnext, hkind]
      | WhileBody p q => simp only [compile_loop, hnext, hkind]
      | Proc p => simp only [compile_loop, hnext, hkind]
  · subst hblocks hscopes
    simp only [compile_loop, hnext, hkind]
  · subst hblocks
    simp only [compile_loop, hnext, hkind]

/-- Witness for `unexpected_token_syntax_error`: a stray `else`, an `{` with
no pending `while`, a `}` closing a `while` whose `{` never appeared, and
the crashing `}` with no open block. -/
theorem unexpected_token_syntax_error_witness :
    (compile_loop 6 streamTokenizer [sample_tok .«else» 0] [] [] [[]] =
      .error { location := sample_loc 0,
               message := unexpected_token_message TokenKind.«else» }) ∧
    (compile_loop 6 streamTokenizer [sample_tok .openBrace 0] [] [] [[]] =
      .error { location := sample_loc 0,
               message := unexpected_token_message TokenKind.openBrace }) ∧
    (compile_loop 6 streamTokenizer [sample_tok .closeBrace 0] [] [.While 0] [[]] =
      .error { location := sample_loc 0,
               message := unexpected_token_message TokenKind.closeBrace }) ∧
    (compile_loop 6 streamTokenizer [sample_tok .closeBrace 0] [] [] [[]] = .crash) := by
  refine ⟨?_, ?_, ?_, ?_⟩
  · exact (unexpected_token_syntax_error streamTokenizer [sample_tok .«else» 0] [] 5
      [] [] [[]] (sample_tok .«else» 0) rfl).1 rfl
  · exact (unexpected_token_syntax_error streamTokenizer [sample_tok .openBrace 0] [] 5
      [] [] [[]] (sample_tok .openBrace 0) rfl).2.1 rfl (by intro p r h; cases h)
  · exact (unexpected_token_syntax_error streamTokenizer [sample_tok .closeBrace 0] [] 5
      [] [.While 0] [[]] (sample_tok .closeBrace 0) rfl).2.2.1 rfl 0 [] [] []
      rfl rfl
  · exact (unexpected_token_syntax_error streamTokenizer [sample_tok .closeBrace 0] [] 5
      [] [] [[]] (sample_tok .closeBrace 0) rfl).2.2.2 rfl rfl

/-! ### Claim C5 -/

/-- Claim C5, the code's actual behavior at the failing input.  Lexing
`"0x10"` does not produce an `Integer` token with value 16: the base-prefix
letter `x` is chosen as the base by peeking but never consumed, so the digit
loop reads it as the digit 33 and fails with a "digit too big" lexical
error.  (Every `0b`/`0o`/`0d`/`0x` literal fails the same way, so the
base-prefix feature of the claim and of the surrounding code is dead;
unprefixed decimal literals and the too-big-digit check itself behave as
claimed.) -/
theorem hex_literal_lexes_to_error :
    Lex.Lexer.next_token 50 (Lex.Lexer.new "sample" "0x10") =
      .error { location := { filepath := "sample", position := 1, line := 1, column := 2 },
               message := "Digit 'x' is too big for base 16" } :=
  rfl

/-! ### Claim C8 -/

/-- If the harvesting loop succeeds, every harvested value was a `Type`
value. -/
theorem values_to_types_all_types (oloc : SourceLocation) :
    ∀ vs ts, values_to_types oloc vs = .ok ts → ∀ v ∈ vs, v.is_type = true := by
  intro vs
  induction vs with
  | nil => intro ts _ v hv; cases hv
  | cons v rest ih =>
    intro ts h w hw
    cases v with
    | type t =>
      cases hrec : values_to_types oloc rest with
      | ok ts' =>
        cases hw with
        | head => rfl
        | tail _ hw' => exact ih ts' hrec w hw'
      | error e => rw [values_to_types, hrec] at h; exact Except.noConfusion h
    | integer n => simp [values_to_types] at h
    | bool b => simp [values_to_types] at h
    | function_pointer p => simp [values_to_types] at h

/-- If some value in the stack is not a `Type` value, the harvesting loop
fails with a signature error. -/
theorem values_to_types_error_of_bad (oloc : SourceLocation) :
    ∀ vs, (∃ v ∈ vs, v.is_type = false) → ∃ e, values_to_types oloc vs = .error e := by
  intro vs
  induction vs with
  | nil => rintro ⟨v, hv, _⟩; cases hv
  | cons v rest ih =>
    rintro ⟨w, hw, hbad⟩
    cases v with
    | type t =>
      cases hw with
      | head => exact absurd hbad (by simp [CValue.is_type])
      | tail _ hw' =>
        obtain ⟨e, he⟩ := ih ⟨w, hw', hbad⟩
        exact ⟨e, by rw [values_to_types, he]⟩
    | integer n => exact ⟨_, rfl⟩
    | bool b => exact ⟨_, rfl⟩
    | function_pointer p => exact ⟨_, rfl⟩

/-- Claim C8.  Signature evaluation:
(a) a successful `eval_sig_tokens` decomposes exactly as the claim states —
the raw token span is compiled by a fresh `compile_ops` invocation driven
through the array-backed tokenizer into its own op list, that list
terminated with `Exit` is immediately executed by the interpreter, every
value the execution leaves on the stack is a `Type` value, and the
harvested types are the result;
(b) if the executed span instead leaves any non-`Type` value on the stack,
signature evaluation fails with an error (the `SignatureError`);
(c) the `Proc` arm of `compile_loop` performs exactly this pipeline: after
collecting the parameter span with the depth counter, it compiles it afresh
over `TokenArray`, appends `Exit`, runs it, harvests the types bottom-up,
and (for a named proc with no `->` clause) emits the `SkipProc` carrying
them. -/
theorem signature_evaluation_spec :
    (∀ fuel fp ts oloc cloc tys, eval_sig_tokens fuel fp ts oloc cloc = .ok tys →
      ∃ sig_ops bks stack,
        compile_loop fuel tokenArrayTokenizer
            { filepath := fp, tokens := ts, position := 0 } [] [] [[]] = .ok sig_ops bks ∧
        run_ops_types (sig_ops ++ [.Exit cloc]) fuel = .halted stack ∧
        (∀ v ∈ stack, v.is_type = true) ∧
        values_to_types oloc stack.reverse = .ok tys) ∧
    (∀ fuel fp ts oloc cloc sig_ops bks stack,
      compile_loop fuel tokenArrayTokenizer
          { filepath := fp, tokens := ts, position := 0 } [] [] [[]] = .ok sig_ops bks →
      run_ops_types (sig_ops ++ [.Exit cloc]) fuel = .halted stack →
      (∃ v ∈ stack, v.is_type = false) →
      ∃ e, eval_sig_tokens fuel fp ts oloc cloc = .error e) ∧
    (∀ {σ : Type} (tk : Tokenizer σ) (s s₀ s₁ s₂ s₃ s₄ s₅ : σ) (fuel : Nat)
      (ops : List Op) (blocks : List BlockType)
      (scope : List (String × Nat)) (rest_scopes : List (List (String × Nat)))
      (token name_token open_tok close_tok brace_tok : Token) (nm : String)
      (parameter_tokens : List Token) (sig_ops : List Op) (bks : List BlockType)
      (stack : List CValue) (parameters : List Ty),
      tk.next_token s = (token, s₀) → token.kind = .proc →
      tk.peek_kind s₀ ≠ .openParenthesis →
      tk.expect_token s₀ .name = .ok (name_token, s₁) →
      name_token.data = .string nm →
      tk.expect_token s₁ .openParenthesis = .ok (open_tok, s₂) →
      collect_paren_tokens tk fuel s₂ 0 [] = some (parameter_tokens, s₃) →
      tk.expect_token s₃ .closeParenthesis = .ok (close_tok, s₄) →
      compile_loop fuel tokenArrayTokenizer
          { filepath := token.location.filepath, tokens := parameter_tokens,
            position := 0 } [] [] [[]] = .ok sig_ops bks →
      run_ops_types (sig_ops ++ [.Exit close_tok.location]) fuel = .halted stack →
      values_to_types open_tok.location stack.reverse = .ok parameters →
      tk.peek_kind s₄ ≠ .rightArrow →
      tk.expect_token s₄ .openBrace = .ok (brace_tok, s₅) →
      compile_loop (fuel + 1) tk s ops blocks (scope :: rest_scopes) =
        compile_loop fuel tk s₅
          (ops ++ [Op.SkipProc token.location 0 parameters []])
          (.Proc ops.length :: blocks)
          ([] :: ((nm, ops.length) :: scope) :: rest_scopes)) := by
  refine ⟨?_, ?_, ?_⟩
  · intro fuel fp ts oloc cloc tys h
    unfold eval_sig_tokens at h
    split at h
    · exact SigEvalRes.noConfusion h
    · exact SigEvalRes.noConfusion h
    · exact SigEvalRes.noConfusion h
    · rename_i sig_ops bks hc
      split at h
      · exact SigEvalRes.noConfusion h
      · exact SigEvalRes.noConfusion h
      · rename_i stack hr
        split at h
        · exact SigEvalRes.noConfusion h
        · rename_i tys' hv
          injection h with h'
          subst h'
          exact ⟨sig_ops, bks, stack, hc, hr,
            fun v hv' => values_to_types_all_types oloc stack.reverse tys' hv v
              (List.mem_reverse.mpr hv'), hv⟩
  · intro fuel fp ts oloc cloc sig_ops bks stack hc hr hbad
    obtain ⟨v, hv, hb⟩ := hbad
    obtain ⟨e, he⟩ :=
      values_to_types_error_of_bad oloc stack.reverse ⟨v, List.mem_reverse.mpr hv, hb⟩
    exact ⟨e, by unfold eval_sig_tokens; simp only [hc, hr, he]⟩
  · intro σ tk s s₀ s₁ s₂ s₃ s₄ s₅ fuel ops blocks scope rest_scopes token name_token
      open_tok close_tok brace_tok nm parameter_tokens sig_ops bks stack parameters
      hnext hkind hpeekparen hname hdata hopen hcollect hclose hc hr hv harrow hbrace
    simp only [compile_loop, hnext, hkind]
    rw [if_pos hpeekparen, hname]
    simp only [hopen, hcollect, hclose, hc, hr, hv, if_neg harrow, hbrace, hdata]


/-- The token stream of `proc f ( int int ) {` used by the witness below. -/
def sample_proc_tokens : List Token :=
  [sample_tok .proc 0, sample_name_tok "f" 1, sample_tok .openParenthesis 2,
   sample_name_tok "int" 3, sample_name_tok "int" 4, sample_tok .closeParenthesis 5,
   sample_tok .openBrace 6]

/-- Witness for `signature_evaluation_spec`: (a) applied to a span whose
evaluation leaves only `Type` values; (b) applied to a span leaving an
`Integer` value (yielding the signature error); (c) applied to the concrete
stream `proc f ( int int ) {`. -/
theorem signature_evaluation_spec_witness :
    (∃ sig_ops bks stack,
      compile_loop 30 tokenArrayTokenizer
          { filepath := "sample",
            tokens := [sample_name_tok "int" 0, sample_name_tok "int" 1],
            position := 0 } [] [] [[]] = .ok sig_ops bks ∧
      run_ops_types (sig_ops ++ [.Exit (sample_loc 3)]) 30 = .halted stack ∧
      (∀ v ∈ stack, v.is_type = true) ∧
      values_to_types (sample_loc 2) stack.reverse = .ok [Ty.integer]) ∧
    (∃ e, eval_sig_tokens 29 "sample" [sample_int_tok 5 0, sample_int_tok 5 1]
        (sample_loc 2) (sample_loc 3) = .error e) ∧
    (compile_loop 30 streamTokenizer sample_proc_tokens [] [] [[]] =
      compile_loop 29 streamTokenizer []
        ([] ++ [Op.SkipProc (sample_loc 0) 0 [Ty.integer] []])
        [.Proc 0] ([] :: (("f", 0) :: []) :: [])) := by
  refine ⟨?_, ?_, ?_⟩
  · exact signature_evaluation_spec.1 30 "sample"
      [sample_name_tok "int" 0, sample_name_tok "int" 1] (sample_loc 2) (sample_loc 3)
      [Ty.integer] rfl
  · exact signature_evaluation_spec.2.1 29 "sample" [sample_int_tok 5 0, sample_int_tok 5 1]
      (sample_loc 2) (sample_loc 3) [Op.PushInteger (sample_loc 0) 5] []
      [CValue.integer 5] rfl rfl ⟨CValue.integer 5, by simp, rfl⟩
  · exact signature_evaluation_spec.2.2 streamTokenizer sample_proc_tokens _ _ _ _ _ _ 29
      [] [] [] [] (sample_tok .proc 0) (sample_name_tok "f" 1) (sample_tok .openParenthesis 2)
      (sample_tok .closeParenthesis 5) (sample_tok .openBrace 6) "f"
      [sample_name_tok "int" 3, sample_name_tok "int" 4]
      [Op.PushType (sample_loc 3) .integer] [] [CValue.type .integer] [Ty.integer]
      rfl rfl (by decide) rfl rfl rfl rfl rfl rfl rfl rfl (by decide) rfl

/-! ### Claim C10 -/

/-- Claim C10.  Lexing `"1_0"` produces a single `Integer` token with value
10 (covering all three characters), followed by end-of-file: the `_` inside
an integer literal is consumed and skipped without affecting the token's
kind or value. -/
theorem underscore_digit_separator :
    Lex.Lexer.next_token 50 (Lex.Lexer.new "sample" "1_0") =
      .ok { kind := .integer
            location := { filepath := "sample", position := 0, line := 1, column := 1 }
            length := 3
            data := .integer 10 }
        { source := "1_0".data
          location := { filepath := "sample", position := 3, line := 1, column := 4 } } ∧
      (match Lex.Lexer.next_token 50 (Lex.Lexer.new "sample" "1_0") with
        | .ok _ lx => (Lex.Lexer.next_token 50 lx).ok_kind
        | _ => none) = some .endOfFile :=
  ⟨rfl, rfl⟩

end SBL
